import Mathlib

/-!
# Verification of the LMIS box transfer engine

A shallow embedding of the box lifecycle state machine of the
`lmis_mvp_backend` repository: box bulk generation (`src/routes/orders.js`),
the four transfer operations of the transactions router (both the simple and
the fuller variant found in the repository), the dispatch / facility-receive /
stock routes of `src/routes/boxes.js`, and proofs of the frozen claims about
them.

Database rows are modelled as Lean structures; the relational store is a
`DB` structure holding lists of rows.  Prisma's `$transaction` with a thrown
error is modelled by each route returning the original `DB` unchanged on any
error path, and the transaction body threading an intermediate `DB` that is
discarded on error.  `createdAt` timestamps are modelled by a logical clock
that every committing route bumps once, so events written by the same
transaction share one timestamp, and later transactions get later ones.
-/

deriving instance DecidableEq for Except

namespace LMIS

/-- Box status enum, from `prisma/schema` / the route string literals. -/
inductive Status where
  | CREATED
  | IN_WAREHOUSE
  | IN_TRANSIT
  | IN_FACILITY
  | DISPENSED
  | VOID
deriving DecidableEq, Repr

/-- Facility type enum. -/
inductive FacilityType where
  | WAREHOUSE
  | FACILITY
deriving DecidableEq, Repr

/-- User roles, from the `requireRole` calls. -/
inductive Role where
  | SUPER_ADMIN
  | WAREHOUSE_OFFICER
  | FACILITY_OFFICER
  | CLINICIAN
  | VIEWER
deriving DecidableEq, Repr

/-- BoxEvent type enum. -/
inductive EventType where
  | QR_CREATED
  | WAREHOUSE_RECEIVE
  | DISPATCH
  | FACILITY_RECEIVE
  | DISPENSE
  | ADJUSTMENT
deriving DecidableEq, Repr

/-- A facility row.  `ftype` embeds the `type` column. -/
structure Facility where
  id : Nat
  code : String
  name : String
  ftype : FacilityType
  warehouseId : Option Nat
deriving DecidableEq, Repr

/-- An order row. -/
structure Order where
  id : Nat
  orderNumber : String
  donorName : Option String
deriving DecidableEq, Repr

/-- A product row. -/
structure Product where
  id : Nat
  code : String
  name : String
deriving DecidableEq, Repr

/-- A box row. -/
structure Box where
  id : Nat
  boxUid : String
  orderId : Nat
  productId : Nat
  batchNo : String
  expiryDate : Nat
  status : Status
  currentFacilityId : Option Nat
deriving DecidableEq, Repr

/-- A box event row.  `etype` embeds the `type` column. -/
structure BoxEvent where
  boxId : Nat
  etype : EventType
  performedByUserId : Nat
  fromFacilityId : Option Nat
  toFacilityId : Option Nat
  note : Option String
  createdAt : Nat
deriving DecidableEq, Repr

/-- The authenticated actor injected by the auth middleware. -/
structure User where
  id : Nat
  role : Role
  facilityId : Option Nat
deriving DecidableEq, Repr

/-- The relational store.  `clock` models `now()` for `createdAt` columns;
`nextBoxId` / `nextProductId` model id generation on row creation. -/
structure DB where
  facilities : List Facility
  orders : List Order
  products : List Product
  boxes : List Box
  events : List BoxEvent
  nextBoxId : Nat
  nextProductId : Nat
  clock : Nat
deriving DecidableEq, Repr

/-- Error classes of the spec taxonomy, one per distinct error code path. -/
inductive ErrKind where
  | validation
  | notFound
  | authorization
  | precondition
  | wrongDest
deriving DecidableEq, Repr

/-- An HTTP error response: status code, message, and the structured lists
(`missing`, `invalid`, `wrongDestination`) of the bulk failure payloads. -/
structure ErrorResponse where
  kind : ErrKind
  status : Nat
  message : String
  missing : List String := []
  invalid : List String := []
  wrongDestination : List String := []
deriving DecidableEq, Repr

/-- JS `String.prototype.trim()`: strip leading and trailing whitespace
(structural on the character list, unlike `String.trim`, so that concrete
instances evaluate inside the kernel). -/
def strTrim (s : String) : String :=
  ⟨((s.data.dropWhile Char.isWhitespace).reverse.dropWhile
      Char.isWhitespace).reverse⟩

/-- `[...new Set(xs)]`: de-duplicate keeping the first occurrence. -/
def dedupFirstAux [DecidableEq α] (seen : List α) : List α → List α
  | [] => []
  | x :: xs =>
    if x ∈ seen then dedupFirstAux seen xs
    else x :: dedupFirstAux (x :: seen) xs

/-- The de-dup step of `getBoxesOrThrow` in the transactions router
(`[...new Set(boxUids.map((x) => String(x).trim()))]`): trim every uid and
keep first occurrences. -/
def dedupUids (arr : List String) : List String :=
  dedupFirstAux [] (arr.map strTrim)

/-- `uniqueStrings` from `src/routes/boxes.js`
(`[...new Set((arr || []).map(String).map((s) => s.trim()).filter(Boolean))]`):
trim every entry, drop entries that trim to the empty string (the
`.filter(Boolean)` step), keep first occurrences. -/
def uniqueStrings (arr : List String) : List String :=
  dedupFirstAux [] ((arr.map strTrim).filter (fun s => decide (s ≠ "")))

/-- `prisma.box.update({ where: { id }, data })`: rewrite the row with the
given id (ids are unique in a well-formed store). -/
def updateBoxRow (boxes : List Box) (id : Nat) (f : Box → Box) : List Box :=
  boxes.map (fun b => if b.id = id then f b else b)

/-- `findMany({ where: { boxId, type: DISPATCH }, orderBy: { createdAt: "desc" } })`
followed by "first hit per box": the DISPATCH event of this box with the
greatest `createdAt` (earliest-inserted on ties, as a stable sort yields). -/
def lastDispatchFor (events : List BoxEvent) (boxId : Nat) : Option BoxEvent :=
  (events.filter (fun e => decide (e.etype = EventType.DISPATCH ∧ e.boxId = boxId))).foldl
    (fun acc e =>
      match acc with
      | none => some e
      | some a => if a.createdAt < e.createdAt then some e else acc)
    none

/-- `getMyFacilityOrThrow` from the transactions router. -/
def getMyFacilityOrThrow (db : DB) (user : User) : Except ErrorResponse Facility :=
  match user.facilityId with
  | none =>
    .error { kind := .validation, status := 400,
             message := "Your user has no facilityId assigned" }
  | some fid =>
    match db.facilities.find? (fun f => decide (f.id = fid)) with
    | none =>
      .error { kind := .notFound, status := 400,
               message := "Your assigned facilityId does not exist" }
    | some f => .ok f

/-- The boxes that a list of (already de-duplicated) uids resolves to. -/
def resolveBoxes (db : DB) (uids : List String) : List Box :=
  db.boxes.filter (fun b => decide (b.boxUid ∈ uids))

/-- `getBoxesOrThrow` from the transactions router: resolve all uids in one
lookup; if any is missing fail listing every missing identifier. -/
def getBoxesOrThrow (db : DB) (boxUids : List String) :
    Except ErrorResponse (List Box) :=
  let uids := dedupUids boxUids
  let boxes := resolveBoxes db uids
  if boxes.length ≠ uids.length then
    let found := boxes.map Box.boxUid
    .error { kind := .notFound, status := 400, message := "Some boxUids not found",
             missing := uids.filter (fun u => decide (u ∉ found)) }
  else
    .ok boxes

/-- Success payload of the fuller `POST /api/transactions/warehouse-receive`. -/
structure WRResp where
  updatedCount : Nat
  skippedCount : Nat
  updated : List String
  skipped : List String
deriving DecidableEq, Repr

/-- The WAREHOUSE_RECEIVE event written by the warehouse-receive loop. -/
def wrEvent (b : Box) (userId facId : Nat) (note : Option String) (t : Nat) :
    BoxEvent :=
  { boxId := b.id, etype := .WAREHOUSE_RECEIVE, performedByUserId := userId,
    fromFacilityId := none, toFacilityId := some facId, note := note,
    createdAt := t }

/-- The `$transaction` body of the fuller warehouse-receive: iterate the
pre-read boxes, skip idempotent ones, throw on a non-CREATED box, otherwise
update the row and append the event. -/
def wrLoop (userId facId : Nat) (note : Option String) :
    List Box → DB → List String → List String →
    Except ErrorResponse (DB × List String × List String)
  | [], d, updated, skipped => .ok (d, updated, skipped)
  | b :: bs, d, updated, skipped =>
    if b.status = Status.IN_WAREHOUSE ∧ b.currentFacilityId = some facId then
      wrLoop userId facId note bs d updated (skipped ++ [b.boxUid])
    else if b.status ≠ Status.CREATED then
      .error { kind := .precondition, status := 400,
               message := "Box " ++ b.boxUid ++ " is not in CREATED state" }
    else
      wrLoop userId facId note bs
        { d with
            boxes := updateBoxRow d.boxes b.id
              (fun x => { x with status := .IN_WAREHOUSE,
                                 currentFacilityId := some facId }),
            events := d.events ++ [wrEvent b userId facId note d.clock] }
        (updated ++ [b.boxUid]) skipped

/-- Fuller `POST /api/transactions/warehouse-receive`. -/
def txWarehouseReceive (db : DB) (user : User) (boxUids : List String)
    (note : Option String) : DB × Except ErrorResponse WRResp :=
  if user.role ∉ [Role.SUPER_ADMIN, Role.WAREHOUSE_OFFICER] then
    (db, .error { kind := .authorization, status := 403, message := "Forbidden" })
  else if boxUids.isEmpty then
    (db, .error { kind := .validation, status := 400,
                  message := "boxUids must be a non-empty array" })
  else
    match getMyFacilityOrThrow db user with
    | .error e => (db, .error e)
    | .ok myFacility =>
      if myFacility.ftype ≠ FacilityType.WAREHOUSE then
        (db, .error { kind := .authorization, status := 403,
                      message := "You must be assigned to a WAREHOUSE to warehouse-receive" })
      else
        match getBoxesOrThrow db boxUids with
        | .error e => (db, .error e)
        | .ok boxes =>
          match wrLoop user.id myFacility.id note boxes db [] [] with
          | .error e => (db, .error e)
          | .ok (d, updated, skipped) =>
            ({ d with clock := d.clock + 1 },
             .ok { updatedCount := updated.length, skippedCount := skipped.length,
                   updated := updated, skipped := skipped })

/-- Success payload of the fuller `POST /api/transactions/dispatch`. -/
structure DispatchResp where
  count : Nat
  fromWarehouse : String
  toFacility : String
deriving DecidableEq, Repr

/-- The DISPATCH event written by the dispatch loops. -/
def dispatchEvent (b : Box) (userId fromId toId : Nat) (note : Option String)
    (t : Nat) : BoxEvent :=
  { boxId := b.id, etype := .DISPATCH, performedByUserId := userId,
    fromFacilityId := some fromId, toFacilityId := some toId, note := note,
    createdAt := t }

/-- The `$transaction` body of the fuller dispatch: every box must be
IN_WAREHOUSE at the actor's warehouse; set IN_TRANSIT and clear
`currentFacilityId`, appending one DISPATCH event per box. -/
def dispatchLoop (userId fromId toId : Nat) (note : Option String) :
    List Box → DB → Except ErrorResponse DB
  | [], d => .ok d
  | b :: bs, d =>
    if b.status ≠ Status.IN_WAREHOUSE ∨ b.currentFacilityId ≠ some fromId then
      .error { kind := .precondition, status := 400,
               message := "Box " ++ b.boxUid ++ " is not IN_WAREHOUSE in your warehouse" }
    else
      dispatchLoop userId fromId toId note bs
        { d with
            boxes := updateBoxRow d.boxes b.id
              (fun x => { x with status := .IN_TRANSIT, currentFacilityId := none }),
            events := d.events ++ [dispatchEvent b userId fromId toId note d.clock] }

/-- Fuller `POST /api/transactions/dispatch`. -/
def txDispatch (db : DB) (user : User) (boxUids : List String)
    (toFacilityCode : String) (note : Option String) :
    DB × Except ErrorResponse DispatchResp :=
  if user.role ∉ [Role.SUPER_ADMIN, Role.WAREHOUSE_OFFICER] then
    (db, .error { kind := .authorization, status := 403, message := "Forbidden" })
  else if boxUids.isEmpty then
    (db, .error { kind := .validation, status := 400,
                  message := "boxUids must be a non-empty array" })
  else if toFacilityCode = "" then
    (db, .error { kind := .validation, status := 400,
                  message := "toFacilityCode is required" })
  else
    match getMyFacilityOrThrow db user with
    | .error e => (db, .error e)
    | .ok fromFacility =>
      if fromFacility.ftype ≠ FacilityType.WAREHOUSE then
        (db, .error { kind := .authorization, status := 403,
                      message := "You must be assigned to a WAREHOUSE to dispatch" })
      else
        match db.facilities.find? (fun f => decide (f.code = strTrim toFacilityCode)) with
        | none =>
          (db, .error { kind := .notFound, status := 404,
                        message := "Destination facility not found" })
        | some toFacility =>
          if toFacility.ftype ≠ FacilityType.FACILITY then
            (db, .error { kind := .validation, status := 400,
                          message := "Destination must be a FACILITY (not a warehouse)" })
          else if user.role ≠ Role.SUPER_ADMIN ∧
                  toFacility.warehouseId ≠ some fromFacility.id then
            (db, .error { kind := .authorization, status := 403,
                          message := "This facility is not under your warehouse (warehouseId mismatch)" })
          else
            match getBoxesOrThrow db boxUids with
            | .error e => (db, .error e)
            | .ok boxes =>
              match dispatchLoop user.id fromFacility.id toFacility.id note boxes db with
              | .error e => (db, .error e)
              | .ok d =>
                ({ d with clock := d.clock + 1 },
                 .ok { count := boxes.length, fromWarehouse := fromFacility.code,
                       toFacility := toFacility.code })

/-- Success payload of the fuller `POST /api/transactions/facility-receive`. -/
structure FRResp where
  count : Nat
  facility : String
deriving DecidableEq, Repr

/-- The FACILITY_RECEIVE event written by the fuller facility-receive loop
(`fromFacilityId` is copied from the last DISPATCH event). -/
def frEvent (b : Box) (userId : Nat) (fromId : Option Nat) (toId : Nat)
    (note : Option String) (t : Nat) : BoxEvent :=
  { boxId := b.id, etype := .FACILITY_RECEIVE, performedByUserId := userId,
    fromFacilityId := fromId, toFacilityId := some toId, note := note,
    createdAt := t }

/-- The `$transaction` body of the fuller facility-receive.  `lastDispatch`
is the per-box latest-DISPATCH map built once at transaction entry. -/
def frLoop (userId : Nat) (role : Role) (myId : Nat) (note : Option String)
    (lastDispatch : Nat → Option BoxEvent) :
    List Box → DB → Except ErrorResponse DB
  | [], d => .ok d
  | b :: bs, d =>
    if b.status ≠ Status.IN_TRANSIT then
      .error { kind := .precondition, status := 400,
               message := "Box " ++ b.boxUid ++ " is not IN_TRANSIT" }
    else
      match lastDispatch b.id with
      | none =>
        .error { kind := .precondition, status := 400,
                 message := "Box " ++ b.boxUid ++ " has no DISPATCH record (cannot receive)" }
      | some ev =>
        if role ≠ Role.SUPER_ADMIN ∧ ev.toFacilityId ≠ some myId then
          .error { kind := .precondition, status := 400,
                   message := "Box " ++ b.boxUid ++ " was dispatched to a different facility (duplicate/route mismatch)" }
        else
          frLoop userId role myId note lastDispatch bs
            { d with
                boxes := updateBoxRow d.boxes b.id
                  (fun x => { x with status := .IN_FACILITY,
                                     currentFacilityId := some myId }),
                events := d.events ++
                  [frEvent b userId ev.fromFacilityId myId note d.clock] }

/-- Fuller `POST /api/transactions/facility-receive`. -/
def txFacilityReceive (db : DB) (user : User) (boxUids : List String)
    (note : Option String) : DB × Except ErrorResponse FRResp :=
  if user.role ∉ [Role.SUPER_ADMIN, Role.FACILITY_OFFICER] then
    (db, .error { kind := .authorization, status := 403, message := "Forbidden" })
  else if boxUids.isEmpty then
    (db, .error { kind := .validation, status := 400,
                  message := "boxUids must be a non-empty array" })
  else
    match getMyFacilityOrThrow db user with
    | .error e => (db, .error e)
    | .ok myFacility =>
      if myFacility.ftype ≠ FacilityType.FACILITY then
        (db, .error { kind := .authorization, status := 403,
                      message := "You must be assigned to a FACILITY to facility-receive" })
      else
        match getBoxesOrThrow db boxUids with
        | .error e => (db, .error e)
        | .ok boxes =>
          match frLoop user.id user.role myFacility.id note
              (lastDispatchFor db.events) boxes db with
          | .error e => (db, .error e)
          | .ok d =>
            ({ d with clock := d.clock + 1 },
             .ok { count := boxes.length, facility := myFacility.code })

/-- Success payload of the fuller `POST /api/transactions/dispense`. -/
structure DispenseResp where
  boxUid : String
  facility : String
deriving DecidableEq, Repr

/-- The DISPENSE event. -/
def dispenseEvent (b : Box) (userId facId : Nat) (note : Option String)
    (t : Nat) : BoxEvent :=
  { boxId := b.id, etype := .DISPENSE, performedByUserId := userId,
    fromFacilityId := some facId, toFacilityId := none, note := note,
    createdAt := t }

/-- Fuller `POST /api/transactions/dispense` (single box). -/
def txDispense (db : DB) (user : User) (boxUid : String) (note : Option String) :
    DB × Except ErrorResponse DispenseResp :=
  if user.role ∉ [Role.SUPER_ADMIN, Role.CLINICIAN] then
    (db, .error { kind := .authorization, status := 403, message := "Forbidden" })
  else if boxUid = "" then
    (db, .error { kind := .validation, status := 400,
                  message := "boxUid is required" })
  else
    match getMyFacilityOrThrow db user with
    | .error e => (db, .error e)
    | .ok myFacility =>
      if myFacility.ftype ≠ FacilityType.FACILITY then
        (db, .error { kind := .authorization, status := 403,
                      message := "You must be assigned to a FACILITY to dispense" })
      else
        match db.boxes.find? (fun b => decide (b.boxUid = strTrim boxUid)) with
        | none =>
          (db, .error { kind := .notFound, status := 404, message := "Box not found" })
        | some box =>
          if box.status ≠ Status.IN_FACILITY ∨
              box.currentFacilityId ≠ some myFacility.id then
            (db, .error { kind := .precondition, status := 400,
                          message := "Box is not available in your facility to dispense" })
          else
            ({ db with
                 boxes := updateBoxRow db.boxes box.id
                   (fun x => { x with status := .DISPENSED }),
                 events := db.events ++
                   [dispenseEvent box user.id myFacility.id note db.clock],
                 clock := db.clock + 1 },
             .ok { boxUid := box.boxUid, facility := myFacility.code })

/-- Success payload of the simple-variant `POST /api/transactions/dispatch`. -/
structure SimpleDispatchResp where
  count : Nat
  toFacility : String
deriving DecidableEq, Repr

/-- The `$transaction` body of the simple-variant dispatch.  Note: it sets
`status` to IN_TRANSIT but, unlike the fuller variant, leaves
`currentFacilityId` untouched. -/
def simpleDispatchLoop (userId fromId toId : Nat) (note : Option String) :
    List Box → DB → Except ErrorResponse DB
  | [], d => .ok d
  | b :: bs, d =>
    if b.status ≠ Status.IN_WAREHOUSE ∨ b.currentFacilityId ≠ some fromId then
      .error { kind := .precondition, status := 400,
               message := "Box " ++ b.boxUid ++ " is not IN_WAREHOUSE in your warehouse" }
    else
      simpleDispatchLoop userId fromId toId note bs
        { d with
            boxes := updateBoxRow d.boxes b.id
              (fun x => { x with status := .IN_TRANSIT }),
            events := d.events ++ [dispatchEvent b userId fromId toId note d.clock] }

/-- Simple-variant `POST /api/transactions/dispatch`.  It does not de-duplicate
or length-check the uids: unresolved uids are silently dropped by the
`findMany`, and the reported `count` is the length of the request list. -/
def simpleDispatch (db : DB) (user : User) (boxUids : List String)
    (toFacilityCode : String) (note : Option String) :
    DB × Except ErrorResponse SimpleDispatchResp :=
  if user.role ∉ [Role.SUPER_ADMIN, Role.WAREHOUSE_OFFICER] then
    (db, .error { kind := .authorization, status := 403, message := "Forbidden" })
  else if boxUids.isEmpty then
    (db, .error { kind := .validation, status := 400,
                  message := "boxUids must be a non-empty array" })
  else if toFacilityCode = "" then
    (db, .error { kind := .validation, status := 400,
                  message := "toFacilityCode is required" })
  else
    match user.facilityId with
    | none =>
      (db, .error { kind := .validation, status := 400,
                    message := "Your user has no facilityId assigned" })
    | some fromFacilityId =>
      match db.facilities.find? (fun f => decide (f.code = toFacilityCode)) with
      | none =>
        (db, .error { kind := .notFound, status := 404,
                      message := "Destination facility not found" })
      | some toFacility =>
        let boxes := resolveBoxes db boxUids
        match simpleDispatchLoop user.id fromFacilityId toFacility.id note boxes db with
        | .error e => (db, .error e)
        | .ok d =>
          ({ d with clock := d.clock + 1 },
           .ok { count := boxUids.length, toFacility := toFacility.code })

/-- `assertFacilityExists` from `src/routes/boxes.js` (404 on a miss). -/
def assertFacilityExists (db : DB) (facilityId : Nat) :
    Except ErrorResponse Facility :=
  match db.facilities.find? (fun f => decide (f.id = facilityId)) with
  | none => .error { kind := .notFound, status := 404, message := "Facility not found" }
  | some f => .ok f

/-- Success payload of `POST /api/boxes/dispatch`. -/
structure BoxesDispatchResp where
  fromFacilityCode : String
  toFacilityCode : String
  dispatchedCount : Nat
deriving DecidableEq, Repr

/-- The DISPATCH event written by the boxes-router dispatch (`createMany`),
with its default note text. -/
def bxDispatchEvent (userId fromFid toFid : Nat) (n : Option String)
    (fromCode toCode : String) (t : Nat) (id : Nat) : BoxEvent :=
  { boxId := id, etype := .DISPATCH, performedByUserId := userId,
    fromFacilityId := some fromFid, toFacilityId := some toFid,
    note := some (n.getD ("Dispatched from " ++ fromCode ++ " to " ++ toCode)),
    createdAt := t }

/-- `POST /api/boxes/dispatch` from `src/routes/boxes.js`: validate-then-mutate
bulk dispatch.  No facility-type or warehouse-hierarchy checks are performed;
`fromFacilityId` defaults to the actor's facility. -/
def boxesDispatch (db : DB) (user : User) (boxUidsRaw : List String)
    (toFacilityId : Option Nat) (fromFacilityIdBody : Option Nat)
    (note : Option String) : DB × Except ErrorResponse BoxesDispatchResp :=
  if user.role ∉ [Role.SUPER_ADMIN, Role.WAREHOUSE_OFFICER] then
    (db, .error { kind := .authorization, status := 403, message := "Forbidden" })
  else
    let boxUids := uniqueStrings boxUidsRaw
    if boxUids.isEmpty then
      (db, .error { kind := .validation, status := 400,
                    message := "boxUids is required (array)" })
    else
      match toFacilityId with
      | none =>
        (db, .error { kind := .validation, status := 400,
                      message := "toFacilityId is required" })
      | some toFid =>
        match fromFacilityIdBody <|> user.facilityId with
        | none =>
          (db, .error { kind := .validation, status := 400,
                        message := "fromFacilityId is required (or assign user a facility)" })
        | some fromFid =>
          match assertFacilityExists db fromFid with
          | .error e => (db, .error e)
          | .ok fromFacility =>
            match assertFacilityExists db toFid with
            | .error e => (db, .error e)
            | .ok toFacility =>
              let boxes := resolveBoxes db boxUids
              if boxes.length ≠ boxUids.length then
                let found := boxes.map Box.boxUid
                (db, .error { kind := .notFound, status := 400,
                              message := "Some boxUids were not found",
                              missing := boxUids.filter (fun u => decide (u ∉ found)) })
              else
                let invalid := boxes.filter (fun b =>
                  decide (b.status ≠ Status.IN_WAREHOUSE ∨
                          b.currentFacilityId ≠ some fromFid))
                if invalid ≠ [] then
                  (db, .error { kind := .precondition, status := 400,
                                message := "Some boxes are not eligible for dispatch (must be IN_WAREHOUSE and in the fromFacility)",
                                invalid := (invalid.take 25).map Box.boxUid })
                else
                  let boxIds := boxes.map Box.id
                  ({ db with
                       boxes := db.boxes.map (fun b =>
                         if b.id ∈ boxIds then
                           { b with status := .IN_TRANSIT, currentFacilityId := none }
                         else b),
                       events := db.events ++ boxIds.map
                         (bxDispatchEvent user.id fromFid toFid note
                           fromFacility.code toFacility.code db.clock),
                       clock := db.clock + 1 },
                   .ok { fromFacilityCode := fromFacility.code,
                         toFacilityCode := toFacility.code,
                         dispatchedCount := boxUids.length })

/-- Success payload of `POST /api/boxes/facility-receive`. -/
structure BoxesFRResp where
  toFacilityCode : String
  receivedCount : Nat
deriving DecidableEq, Repr

/-- `POST /api/boxes/facility-receive` from `src/routes/boxes.js`:
validate-then-mutate bulk receive with the soft destination check applied
to every actor (a FACILITY_OFFICER may additionally only receive into their
own facility). -/
def boxesFacilityReceive (db : DB) (user : User) (boxUidsRaw : List String)
    (toFacilityIdBody : Option Nat) (note : Option String) :
    DB × Except ErrorResponse BoxesFRResp :=
  if user.role ∉ [Role.SUPER_ADMIN, Role.FACILITY_OFFICER] then
    (db, .error { kind := .authorization, status := 403, message := "Forbidden" })
  else
    let boxUids := uniqueStrings boxUidsRaw
    if boxUids.isEmpty then
      (db, .error { kind := .validation, status := 400,
                    message := "boxUids is required (array)" })
    else
      match toFacilityIdBody <|> user.facilityId with
      | none =>
        (db, .error { kind := .validation, status := 400,
                      message := "toFacilityId is required (or assign user a facility)" })
      | some toFid =>
        if user.role = Role.FACILITY_OFFICER ∧ user.facilityId ≠ some toFid then
          (db, .error { kind := .authorization, status := 403,
                        message := "Forbidden: you can only receive into your own facility" })
        else
          match assertFacilityExists db toFid with
          | .error e => (db, .error e)
          | .ok toFacility =>
            let boxes := resolveBoxes db boxUids
            if boxes.length ≠ boxUids.length then
              let found := boxes.map Box.boxUid
              (db, .error { kind := .notFound, status := 400,
                            message := "Some boxUids were not found",
                            missing := boxUids.filter (fun u => decide (u ∉ found)) })
            else
              let invalid := boxes.filter (fun b =>
                decide (b.status ≠ Status.IN_TRANSIT))
              if invalid ≠ [] then
                (db, .error { kind := .precondition, status := 400,
                              message := "Some boxes are not eligible for facility receive (must be IN_TRANSIT)",
                              invalid := (invalid.take 25).map Box.boxUid })
              else
                let wrongDestination := boxes.filter (fun b =>
                  match lastDispatchFor db.events b.id with
                  | none => true
                  | some ev => decide (ev.toFacilityId ≠ some toFid))
                if wrongDestination ≠ [] then
                  (db, .error { kind := .wrongDest, status := 400,
                                message := "Some boxes were not dispatched to this facility (destination mismatch)",
                                wrongDestination :=
                                  (wrongDestination.take 25).map Box.boxUid })
                else
                  let boxIds := boxes.map Box.id
                  ({ db with
                       boxes := db.boxes.map (fun b =>
                         if b.id ∈ boxIds then
                           { b with status := .IN_FACILITY,
                                    currentFacilityId := some toFid }
                         else b),
                       events := db.events ++ boxIds.map (fun id =>
                         { boxId := id, etype := .FACILITY_RECEIVE,
                           performedByUserId := user.id,
                           fromFacilityId := none,
                           toFacilityId := some toFid,
                           note := some (note.getD
                             ("Received into facility " ++ toFacility.code)),
                           createdAt := db.clock }),
                       clock := db.clock + 1 },
                   .ok { toFacilityCode := toFacility.code,
                         receivedCount := boxUids.length })

/-- A grouping key of `prisma.box.groupBy({ by: [productId, batchNo, expiryDate, status] })`. -/
structure StockKey where
  productId : Nat
  batchNo : String
  expiryDate : Nat
  status : Status
deriving DecidableEq, Repr

/-- The grouping key of a box row. -/
def boxKey (b : Box) : StockKey :=
  { productId := b.productId, batchNo := b.batchNo,
    expiryDate := b.expiryDate, status := b.status }

/-- The boxes currently at a facility (`where: { currentFacilityId: facilityId }`). -/
def atFacility (db : DB) (facilityId : Nat) : List Box :=
  db.boxes.filter (fun b => decide (b.currentFacilityId = some facilityId))

/-- The `groupBy` result: one `(key, count)` pair per distinct key among the
boxes at the facility. -/
def stockGroups (db : DB) (facilityId : Nat) : List (StockKey × Nat) :=
  let atF := atFacility db facilityId
  (dedupFirstAux [] (atF.map boxKey)).map (fun k =>
    (k, (atF.filter (fun b => decide (boxKey b = k))).length))

/-- Hydrated product info of a stock row (`UNKNOWN` fallback). -/
structure ProductInfo where
  id : Nat
  code : String
  name : String
deriving DecidableEq, Repr

/-- A row of the stock summary response. -/
structure StockRow where
  product : ProductInfo
  batchNo : String
  expiryDate : Nat
  status : Status
  count : Nat
deriving DecidableEq, Repr

/-- Success payload of `GET /api/boxes/stock/facility/:facilityId`. -/
structure StockResp where
  facilityId : Nat
  rows : List StockRow
  totals : Nat
deriving DecidableEq, Repr

/-- The second-pass product hydration of the stock route. -/
def hydrateRow (products : List Product) (g : StockKey × Nat) : StockRow :=
  { product :=
      match products.find? (fun p => decide (p.id = g.1.productId)) with
      | some p => { id := p.id, code := p.code, name := p.name }
      | none => { id := g.1.productId, code := "UNKNOWN", name := "UNKNOWN" },
    batchNo := g.1.batchNo, expiryDate := g.1.expiryDate,
    status := g.1.status, count := g.2 }

/-- `GET /api/boxes/stock/facility/:facilityId` from `src/routes/boxes.js`:
read-only stock rollup grouped by (product, batchNo, expiryDate, status),
restricted to the actor's own facility unless SUPER_ADMIN. -/
def stockFacility (db : DB) (user : User) (facilityId : Nat) :
    DB × Except ErrorResponse StockResp :=
  if user.role ≠ Role.SUPER_ADMIN ∧ user.facilityId ≠ some facilityId then
    (db, .error { kind := .authorization, status := 403,
                  message := "Forbidden: you can only view your facility stock" })
  else
    match assertFacilityExists db facilityId with
    | .error e => (db, .error e)
    | .ok _ =>
      let rows := (stockGroups db facilityId).map (hydrateRow db.products)
      (db, .ok { facilityId := facilityId, rows := rows,
                 totals := (rows.map StockRow.count).sum })

/-- Success payload of `POST /api/orders/:orderId/boxes/generate`. -/
structure GenResp where
  orderNumber : String
  createdCount : Nat
  sample : List String
deriving DecidableEq, Repr

/-- One generated box row of the generation loop. -/
def genBox (orderId productId : Nat) (orderNumber batchNo : String) (exp : Nat)
    (whId : Nat) (boxId : Nat) (seq : Nat) : Box :=
  { id := boxId, boxUid := orderNumber ++ "-" ++ toString seq,
    orderId := orderId, productId := productId, batchNo := batchNo,
    expiryDate := exp, status := .IN_WAREHOUSE, currentFacilityId := some whId }

/-- The QR_CREATED event written for a generated box. -/
def genQrEvent (boxId userId whId : Nat) (orderNumber : String) (t : Nat) :
    BoxEvent :=
  { boxId := boxId, etype := .QR_CREATED, performedByUserId := userId,
    fromFacilityId := none, toFacilityId := some whId,
    note := some ("QR created for order " ++ orderNumber), createdAt := t }

/-- The synthetic WAREHOUSE_RECEIVE event written for a generated box. -/
def genWrEvent (boxId userId whId : Nat) (whCode : String) (t : Nat) :
    BoxEvent :=
  { boxId := boxId, etype := .WAREHOUSE_RECEIVE, performedByUserId := userId,
    fromFacilityId := none, toFacilityId := some whId,
    note := some ("Received into warehouse (" ++ whCode ++ ")"), createdAt := t }

/-- The `$transaction` body of box generation: create `k` boxes with
sequential uids starting at `seq`, each with a QR_CREATED + WAREHOUSE_RECEIVE
event pair. -/
def genLoop (orderId productId : Nat) (orderNumber batchNo : String)
    (exp : Nat) (userId whId : Nat) (whCode : String) :
    Nat → Nat → DB → List String → DB × List String
  | 0, _, d, acc => (d, acc)
  | k + 1, seq, d, acc =>
    let box := genBox orderId productId orderNumber batchNo exp whId
      d.nextBoxId seq
    genLoop orderId productId orderNumber batchNo exp userId whId whCode
      k (seq + 1)
      { d with
          boxes := d.boxes ++ [box],
          nextBoxId := d.nextBoxId + 1,
          events := d.events ++
            [genQrEvent box.id userId whId orderNumber d.clock,
             genWrEvent box.id userId whId whCode d.clock] }
      (acc ++ [box.boxUid])

/-- `POST /api/orders/:orderId/boxes/generate` from `src/routes/orders.js`.
`quantity` is the parsed numeric body field (an `Int`, so non-positive values
are rejected as in the source); `expiryDate` is `none` when the body date is
missing or unparsable. -/
def generateBoxes (db : DB) (user : User) (orderId : Nat)
    (productCode productName batchNo : String) (expiryDate : Option Nat)
    (quantity : Int) (warehouseFacilityId : Nat) (donorName : Option String) :
    DB × Except ErrorResponse GenResp :=
  if user.role ∉ [Role.SUPER_ADMIN, Role.WAREHOUSE_OFFICER] then
    (db, .error { kind := .authorization, status := 403, message := "Forbidden" })
  else if productCode = "" ∨ productName = "" ∨ batchNo = "" ∨ expiryDate = none then
    (db, .error { kind := .validation, status := 400,
                  message := "productCode, productName, batchNo, expiryDate, quantity, warehouseFacilityId are required" })
  else if quantity ≤ 0 then
    (db, .error { kind := .validation, status := 400,
                  message := "quantity must be a positive integer" })
  else
    match expiryDate with
    | none =>
      (db, .error { kind := .validation, status := 400,
                    message := "expiryDate must be a valid date (YYYY-MM-DD)" })
    | some exp =>
      match db.orders.find? (fun o => decide (o.id = orderId)) with
      | none =>
        (db, .error { kind := .notFound, status := 404, message := "Order not found" })
      | some order =>
        match db.facilities.find? (fun f => decide (f.id = warehouseFacilityId)) with
        | none =>
          (db, .error { kind := .notFound, status := 404,
                        message := "Warehouse facility not found" })
        | some warehouse =>
          -- donorName handling: reject a conflicting donor, set a missing one
          if donorName ≠ none ∧ order.donorName ≠ none ∧
                 order.donorName ≠ donorName then
            (db, .error { kind := .validation, status := 400,
                          message := "Order already has a different donorName" })
          else
            let db₁ : DB :=
              match donorName with
              | none => db
              | some d =>
                match order.donorName with
                | some _ => db
                | none =>
                  { db with orders := db.orders.map (fun o =>
                      if o.id = order.id then { o with donorName := some d } else o) }
            -- product upsert by code
            let upsert : DB × Nat :=
              match db₁.products.find? (fun p => decide (p.code = productCode)) with
              | some p =>
                ({ db₁ with products := db₁.products.map (fun q =>
                     if q.id = p.id then { q with name := productName } else q) },
                 p.id)
              | none =>
                ({ db₁ with
                     products := db₁.products ++
                       [{ id := db₁.nextProductId, code := productCode,
                          name := productName }],
                     nextProductId := db₁.nextProductId + 1 },
                 db₁.nextProductId)
            let db₂ : DB := upsert.1
            let productId : Nat := upsert.2
            let existingCount :=
              (db₂.boxes.filter (fun b => decide (b.orderId = order.id))).length
            let gen : DB × List String :=
              genLoop order.id productId order.orderNumber batchNo exp user.id
                warehouse.id warehouse.code quantity.toNat (existingCount + 1)
                db₂ []
            let db₃ : DB := gen.1
            let createdBoxUids : List String := gen.2
            ({ db₃ with clock := db₃.clock + 1 },
             .ok { orderNumber := order.orderNumber,
                   createdCount := createdBoxUids.length,
                   sample := createdBoxUids.take 10 })

/-- Well-formed store: box ids and box uids are unique (database key / unique
column constraints). -/
def DB.WF (db : DB) : Prop :=
  (db.boxes.map Box.id).Nodup ∧ (db.boxes.map Box.boxUid).Nodup

instance (db : DB) : Decidable db.WF :=
  inferInstanceAs (Decidable ((db.boxes.map Box.id).Nodup ∧
    (db.boxes.map Box.boxUid).Nodup))

/-- Position of a status along the CREATED → … → DISPENSED chain. -/
def statusRank : Status → Nat
  | .CREATED => 0
  | .IN_WAREHOUSE => 1
  | .IN_TRANSIT => 2
  | .IN_FACILITY => 3
  | .DISPENSED => 4
  | .VOID => 5

/-- The unique forward successor along the standard chain. -/
def nextStatus : Status → Option Status
  | .CREATED => some .IN_WAREHOUSE
  | .IN_WAREHOUSE => some .IN_TRANSIT
  | .IN_TRANSIT => some .IN_FACILITY
  | .IN_FACILITY => some .DISPENSED
  | .DISPENSED => none
  | .VOID => none

/-- One invocation of one of the four standard transfer operations. -/
inductive TxOp where
  | wr (user : User) (boxUids : List String) (note : Option String)
  | disp (user : User) (boxUids : List String) (toFacilityCode : String)
      (note : Option String)
  | fr (user : User) (boxUids : List String) (note : Option String)
  | dispense (user : User) (boxUid : String) (note : Option String)

/-- The store after serving one request (commit on success, rollback on
error — the routes return the untouched store on every error path). -/
def applyTxOp (db : DB) : TxOp → DB
  | .wr u us n => (txWarehouseReceive db u us n).1
  | .disp u us c n => (txDispatch db u us c n).1
  | .fr u us n => (txFacilityReceive db u us n).1
  | .dispense u uid n => (txDispense db u uid n).1

/-- The store after serving a sequence of requests. -/
def applyTxOps (db : DB) : List TxOp → DB
  | [] => db
  | op :: ops => applyTxOps (applyTxOp db op) ops

/-- One invocation of one of the five bulk transfer operations. -/
inductive BulkOp where
  | txWR (user : User) (boxUids : List String) (note : Option String)
  | txDisp (user : User) (boxUids : List String) (toFacilityCode : String)
      (note : Option String)
  | txFR (user : User) (boxUids : List String) (note : Option String)
  | bxDisp (user : User) (boxUids : List String) (toFacilityId : Option Nat)
      (fromFacilityIdBody : Option Nat) (note : Option String)
  | bxFR (user : User) (boxUids : List String) (toFacilityId : Option Nat)
      (note : Option String)

/-- Run a bulk operation, forgetting the success payload: the final store and
the error response, if any. -/
def runBulk (db : DB) : BulkOp → DB × Option ErrorResponse
  | .txWR u us n =>
    match txWarehouseReceive db u us n with
    | (d, .ok _) => (d, none)
    | (d, .error e) => (d, some e)
  | .txDisp u us c n =>
    match txDispatch db u us c n with
    | (d, .ok _) => (d, none)
    | (d, .error e) => (d, some e)
  | .txFR u us n =>
    match txFacilityReceive db u us n with
    | (d, .ok _) => (d, none)
    | (d, .error e) => (d, some e)
  | .bxDisp u us t f n =>
    match boxesDispatch db u us t f n with
    | (d, .ok _) => (d, none)
    | (d, .error e) => (d, some e)
  | .bxFR u us t n =>
    match boxesFacilityReceive db u us t n with
    | (d, .ok _) => (d, none)
    | (d, .error e) => (d, some e)

/-- The de-duplicated uid list a bulk operation works on. -/
def BulkOp.uids : BulkOp → List String
  | .txWR _ us _ => dedupUids us
  | .txDisp _ us _ _ => dedupUids us
  | .txFR _ us _ => dedupUids us
  | .bxDisp _ us _ _ _ => uniqueStrings us
  | .bxFR _ us _ _ => uniqueStrings us

/-- The per-box precondition failure of a bulk operation, exactly as each
route checks it (the facility the route compares against is the actor's
resolved facility, whose id equals the actor's `facilityId`).  `db` supplies
the event history for the destination checks. -/
def violates (db : DB) : BulkOp → Box → Bool
  | .txWR u _ _, b =>
    decide (¬(b.status = Status.IN_WAREHOUSE ∧ u.facilityId ≠ none ∧
              b.currentFacilityId = u.facilityId) ∧
            b.status ≠ Status.CREATED)
  | .txDisp u _ _ _, b =>
    decide (b.status ≠ Status.IN_WAREHOUSE ∨ b.currentFacilityId ≠ u.facilityId ∨
            u.facilityId = none)
  | .txFR u _ _, b =>
    decide (b.status ≠ Status.IN_TRANSIT) ||
    (match lastDispatchFor db.events b.id with
     | none => true
     | some ev =>
       decide (u.role ≠ Role.SUPER_ADMIN ∧
               ¬(u.facilityId ≠ none ∧ ev.toFacilityId = u.facilityId)))
  | .bxDisp u _ _ fromBody _, b =>
    decide (b.status ≠ Status.IN_WAREHOUSE ∨
            b.currentFacilityId ≠ (fromBody <|> u.facilityId) ∨
            (fromBody <|> u.facilityId) = none)
  | .bxFR u _ toBody _, b =>
    decide (b.status ≠ Status.IN_TRANSIT) ||
    (match lastDispatchFor db.events b.id with
     | none => true
     | some ev => decide (ev.toFacilityId ≠ (toBody <|> u.facilityId) ∨
                          (toBody <|> u.facilityId) = none))

/-! ## Basic lemmas -/

theorem mem_dedupFirstAux [DecidableEq α] (seen : List α) (l : List α) (x : α) :
    x ∈ dedupFirstAux seen l ↔ x ∈ l ∧ x ∉ seen := by
  induction l generalizing seen with
  | nil => simp [dedupFirstAux]
  | cons y ys ih =>
    by_cases hy : y ∈ seen
    · rw [dedupFirstAux, if_pos hy]
      simp only [ih, List.mem_cons]
      constructor
      · rintro ⟨h1, h2⟩; exact ⟨Or.inr h1, h2⟩
      · rintro ⟨rfl | h1, h2⟩
        · exact absurd hy h2
        · exact ⟨h1, h2⟩
    · rw [dedupFirstAux, if_neg hy]
      simp only [List.mem_cons, ih]
      by_cases hxy : x = y
      · subst hxy; simp [hy]
      · simp [hxy, not_or]

theorem getMyFacility_facilityId {db : DB} {u : User} {f : Facility}
    (h : getMyFacilityOrThrow db u = .ok f) :
    u.facilityId = some f.id ∧ f ∈ db.facilities := by
  unfold getMyFacilityOrThrow at h
  split at h
  · exact absurd h (by simp)
  · rename_i fid hf
    split at h
    · exact absurd h (by simp)
    · rename_i g hfind
      have hg : g = f := by simpa using h
      subst hg
      have hid : g.id = fid := by simpa using List.find?_some hfind
      exact ⟨by rw [hf, hid], List.mem_of_find?_eq_some hfind⟩

theorem mem_resolveBoxes {db : DB} {uids : List String} {b : Box} :
    b ∈ resolveBoxes db uids ↔ b ∈ db.boxes ∧ b.boxUid ∈ uids := by
  simp [resolveBoxes, List.mem_filter]

/-! ## Error propagation through the transaction loops (claim C1) -/

theorem wrLoop_error (userId facId : Nat) (note : Option String) :
    ∀ (bs : List Box) (d : DB) (up sk : List String),
    (∃ b ∈ bs, ¬(b.status = Status.IN_WAREHOUSE ∧
                 b.currentFacilityId = some facId) ∧
               b.status ≠ Status.CREATED) →
    ∀ r, wrLoop userId facId note bs d up sk ≠ .ok r := by
  intro bs
  induction bs with
  | nil => rintro d up sk ⟨b, hb, _⟩; exact absurd hb (by simp)
  | cons b bs ih =>
    rintro d up sk ⟨c, hc, hviol, hcreated⟩ r
    rcases List.mem_cons.mp hc with rfl | hc_tail
    · simp only [wrLoop, if_neg hviol, if_pos hcreated]
      exact fun h => Except.noConfusion h
    · by_cases hskip : b.status = Status.IN_WAREHOUSE ∧
          b.currentFacilityId = some facId
      · simp only [wrLoop, if_pos hskip]
        exact ih d up (sk ++ [b.boxUid]) ⟨c, hc_tail, hviol, hcreated⟩ r
      · by_cases hbc : b.status ≠ Status.CREATED
        · simp only [wrLoop, if_neg hskip, if_pos hbc]
          exact fun h => Except.noConfusion h
        · simp only [wrLoop, if_neg hskip, if_neg hbc]
          exact ih _ _ _ ⟨c, hc_tail, hviol, hcreated⟩ r

theorem dispatchLoop_error (userId fromId toId : Nat) (note : Option String) :
    ∀ (bs : List Box) (d : DB),
    (∃ b ∈ bs, b.status ≠ Status.IN_WAREHOUSE ∨
               b.currentFacilityId ≠ some fromId) →
    ∀ r, dispatchLoop userId fromId toId note bs d ≠ .ok r := by
  intro bs
  induction bs with
  | nil => rintro d ⟨b, hb, _⟩; exact absurd hb (by simp)
  | cons b bs ih =>
    rintro d ⟨c, hc, hviol⟩ r
    rcases List.mem_cons.mp hc with rfl | hc_tail
    · simp only [dispatchLoop, if_pos hviol]
      exact fun h => Except.noConfusion h
    · by_cases hb : b.status ≠ Status.IN_WAREHOUSE ∨
          b.currentFacilityId ≠ some fromId
      · simp only [dispatchLoop, if_pos hb]
        exact fun h => Except.noConfusion h
      · simp only [dispatchLoop, if_neg hb]
        exact ih _ ⟨c, hc_tail, hviol⟩ r

theorem simpleDispatchLoop_error (userId fromId toId : Nat)
    (note : Option String) :
    ∀ (bs : List Box) (d : DB),
    (∃ b ∈ bs, b.status ≠ Status.IN_WAREHOUSE ∨
               b.currentFacilityId ≠ some fromId) →
    ∀ r, simpleDispatchLoop userId fromId toId note bs d ≠ .ok r := by
  intro bs
  induction bs with
  | nil => rintro d ⟨b, hb, _⟩; exact absurd hb (by simp)
  | cons b bs ih =>
    rintro d ⟨c, hc, hviol⟩ r
    rcases List.mem_cons.mp hc with rfl | hc_tail
    · simp only [simpleDispatchLoop, if_pos hviol]
      exact fun h => Except.noConfusion h
    · by_cases hb : b.status ≠ Status.IN_WAREHOUSE ∨
          b.currentFacilityId ≠ some fromId
      · simp only [simpleDispatchLoop, if_pos hb]
        exact fun h => Except.noConfusion h
      · simp only [simpleDispatchLoop, if_neg hb]
        exact ih _ ⟨c, hc_tail, hviol⟩ r

theorem frLoop_error (userId : Nat) (role : Role) (myId : Nat)
    (note : Option String) (lastDispatch : Nat → Option BoxEvent) :
    ∀ (bs : List Box) (d : DB),
    (∃ b ∈ bs, b.status ≠ Status.IN_TRANSIT ∨
      (match lastDispatch b.id with
       | none => True
       | some ev => role ≠ Role.SUPER_ADMIN ∧ ev.toFacilityId ≠ some myId)) →
    ∀ r, frLoop userId role myId note lastDispatch bs d ≠ .ok r := by
  intro bs
  induction bs with
  | nil => rintro d ⟨b, hb, _⟩; exact absurd hb (by simp)
  | cons b bs ih =>
    rintro d ⟨c, hc, hviol⟩ r
    rcases List.mem_cons.mp hc with rfl | hc_tail
    · by_cases ht : c.status ≠ Status.IN_TRANSIT
      · simp only [frLoop, if_pos ht]
        exact fun h => Except.noConfusion h
      · cases hl : lastDispatch c.id with
        | none =>
          simp only [frLoop, if_neg ht, hl]
          exact fun h => Except.noConfusion h
        | some ev =>
          rcases hviol with hv | hv
          · exact absurd hv (by simpa using ht)
          · rw [hl] at hv
            simp only [frLoop, if_neg ht, hl, if_pos hv]
            exact fun h => Except.noConfusion h
    · by_cases hb : b.status ≠ Status.IN_TRANSIT
      · simp only [frLoop, if_pos hb]
        exact fun h => Except.noConfusion h
      · cases hl : lastDispatch b.id with
        | none =>
          simp only [frLoop, if_neg hb, hl]
          exact fun h => Except.noConfusion h
        | some ev =>
          by_cases hmis : role ≠ Role.SUPER_ADMIN ∧ ev.toFacilityId ≠ some myId
          · simp only [frLoop, if_neg hb, hl, if_pos hmis]
            exact fun h => Except.noConfusion h
          · simp only [frLoop, if_neg hb, hl, if_neg hmis]
            exact ih _ ⟨c, hc_tail, hviol⟩ r

theorem getBoxesOrThrow_ok {db : DB} {us : List String} {bs : List Box}
    (h : getBoxesOrThrow db us = .ok bs) :
    bs = resolveBoxes db (dedupUids us) := by
  simp only [getBoxesOrThrow] at h
  split at h
  · exact absurd h (by simp)
  · simpa using (congrArg (fun x => match x with
      | Except.ok v => v
      | Except.error _ => bs) h).symm

theorem txWR_atomic (db : DB) (u : User) (us : List String) (n : Option String)
    (hviol : ∃ b ∈ db.boxes, b.boxUid ∈ dedupUids us ∧
             violates db (.txWR u us n) b = true) :
    (txWarehouseReceive db u us n).2.isOk = false ∧
    (txWarehouseReceive db u us n).1 = db := by
  obtain ⟨b, hb, huid, hv⟩ := hviol
  have hv' : (¬b.status = Status.IN_WAREHOUSE ∨ u.facilityId = none ∨
              ¬b.currentFacilityId = u.facilityId) ∧
             ¬b.status = Status.CREATED := by
    simpa [violates] using hv
  simp only [txWarehouseReceive]
  split
  · exact ⟨rfl, rfl⟩
  · split
    · exact ⟨rfl, rfl⟩
    · cases hfac : getMyFacilityOrThrow db u with
      | error e => exact ⟨rfl, rfl⟩
      | ok myFacility =>
        obtain ⟨hfid, _⟩ := getMyFacility_facilityId hfac
        dsimp only
        split
        · exact ⟨rfl, rfl⟩
        · cases hget : getBoxesOrThrow db us with
          | error e => exact ⟨rfl, rfl⟩
          | ok boxes =>
            dsimp only
            have hboxes := getBoxesOrThrow_ok hget
            have hmem : b ∈ boxes := by
              rw [hboxes]
              exact mem_resolveBoxes.mpr ⟨hb, huid⟩
            have hskipviol : ¬(b.status = Status.IN_WAREHOUSE ∧
                b.currentFacilityId = some myFacility.id) := by
              rintro ⟨hst, hcf⟩
              rcases hv'.1 with h | h | h
              · exact h hst
              · rw [h] at hfid; exact Option.noConfusion hfid
              · rw [hfid] at h; exact h hcf
            have hloop := wrLoop_error u.id myFacility.id n boxes db [] []
              ⟨b, hmem, hskipviol, hv'.2⟩
            cases hrun : wrLoop u.id myFacility.id n boxes db [] [] with
            | error e => exact ⟨rfl, rfl⟩
            | ok r => exact absurd hrun (hloop r)
theorem txDispatch_atomic (db : DB) (u : User) (us : List String)
    (code : String) (n : Option String)
    (hviol : ∃ b ∈ db.boxes, b.boxUid ∈ dedupUids us ∧
             violates db (.txDisp u us code n) b = true) :
    (txDispatch db u us code n).2.isOk = false ∧
    (txDispatch db u us code n).1 = db := by
  obtain ⟨b, hb, huid, hv⟩ := hviol
  have hv' : ¬b.status = Status.IN_WAREHOUSE ∨
             ¬b.currentFacilityId = u.facilityId ∨ u.facilityId = none := by
    simpa [violates] using hv
  simp only [txDispatch]
  split
  · exact ⟨rfl, rfl⟩
  · split
    · exact ⟨rfl, rfl⟩
    · split
      · exact ⟨rfl, rfl⟩
      · cases hfac : getMyFacilityOrThrow db u with
        | error e => exact ⟨rfl, rfl⟩
        | ok fromFacility =>
          obtain ⟨hfid, _⟩ := getMyFacility_facilityId hfac
          dsimp only
          split
          · exact ⟨rfl, rfl⟩
          · cases hdest : db.facilities.find?
                (fun f => decide (f.code = strTrim code)) with
            | none => exact ⟨rfl, rfl⟩
            | some toFacility =>
              dsimp only
              split
              · exact ⟨rfl, rfl⟩
              · split
                · exact ⟨rfl, rfl⟩
                · cases hget : getBoxesOrThrow db us with
                  | error e => exact ⟨rfl, rfl⟩
                  | ok boxes =>
                    dsimp only
                    have hboxes := getBoxesOrThrow_ok hget
                    have hmem : b ∈ boxes := by
                      rw [hboxes]
                      exact mem_resolveBoxes.mpr ⟨hb, huid⟩
                    have hbviol : b.status ≠ Status.IN_WAREHOUSE ∨
                        b.currentFacilityId ≠ some fromFacility.id := by
                      rcases hv' with h | h | h
                      · exact Or.inl h
                      · exact Or.inr (by rw [← hfid]; exact h)
                      · rw [h] at hfid; exact Option.noConfusion hfid
                    have hloop := dispatchLoop_error u.id fromFacility.id
                      toFacility.id n boxes db ⟨b, hmem, hbviol⟩
                    cases hrun : dispatchLoop u.id fromFacility.id
                        toFacility.id n boxes db with
                    | error e => exact ⟨rfl, rfl⟩
                    | ok r => exact absurd hrun (hloop r)

theorem txFR_atomic (db : DB) (u : User) (us : List String) (n : Option String)
    (hviol : ∃ b ∈ db.boxes, b.boxUid ∈ dedupUids us ∧
             violates db (.txFR u us n) b = true) :
    (txFacilityReceive db u us n).2.isOk = false ∧
    (txFacilityReceive db u us n).1 = db := by
  obtain ⟨b, hb, huid, hv⟩ := hviol
  simp only [txFacilityReceive]
  split
  · exact ⟨rfl, rfl⟩
  · split
    · exact ⟨rfl, rfl⟩
    · cases hfac : getMyFacilityOrThrow db u with
      | error e => exact ⟨rfl, rfl⟩
      | ok myFacility =>
        obtain ⟨hfid, _⟩ := getMyFacility_facilityId hfac
        dsimp only
        split
        · exact ⟨rfl, rfl⟩
        · cases hget : getBoxesOrThrow db us with
          | error e => exact ⟨rfl, rfl⟩
          | ok boxes =>
            dsimp only
            have hboxes := getBoxesOrThrow_ok hget
            have hmem : b ∈ boxes := by
              rw [hboxes]
              exact mem_resolveBoxes.mpr ⟨hb, huid⟩
            have hbviol : b.status ≠ Status.IN_TRANSIT ∨
                (match lastDispatchFor db.events b.id with
                 | none => True
                 | some ev => u.role ≠ Role.SUPER_ADMIN ∧
                              ev.toFacilityId ≠ some myFacility.id) := by
              simp only [violates, Bool.or_eq_true, decide_eq_true_eq] at hv
              rcases hv with h | h
              · exact Or.inl h
              · refine Or.inr ?_
                cases hl : lastDispatchFor db.events b.id with
                | none => trivial
                | some ev =>
                  rw [hl] at h
                  simp only [decide_eq_true_eq] at h
                  refine ⟨h.1, fun hto => h.2 ⟨by simp [hfid], ?_⟩⟩
                  rw [hto, hfid]
            have hloop := frLoop_error u.id u.role myFacility.id n
              (lastDispatchFor db.events) boxes db ⟨b, hmem, hbviol⟩
            cases hrun : frLoop u.id u.role myFacility.id n
                (lastDispatchFor db.events) boxes db with
            | error e => exact ⟨rfl, rfl⟩
            | ok r => exact absurd hrun (hloop r)

theorem bxDisp_atomic (db : DB) (u : User) (us : List String)
    (toF fromF : Option Nat) (n : Option String)
    (hviol : ∃ b ∈ db.boxes, b.boxUid ∈ uniqueStrings us ∧
             violates db (.bxDisp u us toF fromF n) b = true) :
    (boxesDispatch db u us toF fromF n).2.isOk = false ∧
    (boxesDispatch db u us toF fromF n).1 = db := by
  obtain ⟨b, hb, huid, hv⟩ := hviol
  have hv' : ¬b.status = Status.IN_WAREHOUSE ∨
             ¬b.currentFacilityId = (fromF <|> u.facilityId) ∨
             (fromF <|> u.facilityId) = none := by
    simpa [violates] using hv
  simp only [boxesDispatch]
  split
  · exact ⟨rfl, rfl⟩
  · split
    · exact ⟨rfl, rfl⟩
    · cases toF with
      | none => exact ⟨rfl, rfl⟩
      | some toFid =>
        dsimp only
        cases hfrom : (fromF <|> u.facilityId) with
        | none => exact ⟨rfl, rfl⟩
        | some fromFid =>
          dsimp only
          cases hfex : assertFacilityExists db fromFid with
          | error e => exact ⟨rfl, rfl⟩
          | ok fromFacility =>
            dsimp only
            cases htex : assertFacilityExists db toFid with
            | error e => exact ⟨rfl, rfl⟩
            | ok toFacility =>
              dsimp only
              split
              · exact ⟨rfl, rfl⟩
              · have hbviol : decide (b.status ≠ Status.IN_WAREHOUSE ∨
                    b.currentFacilityId ≠ some fromFid) = true := by
                  rcases hv' with h | h | h
                  · simp [h]
                  · rw [hfrom] at h; simp [h]
                  · rw [h] at hfrom; exact Option.noConfusion hfrom
                have hmem : b ∈ (resolveBoxes db (uniqueStrings us)).filter
                    (fun c => decide (c.status ≠ Status.IN_WAREHOUSE ∨
                              c.currentFacilityId ≠ some fromFid)) :=
                  List.mem_filter.mpr ⟨mem_resolveBoxes.mpr ⟨hb, huid⟩, hbviol⟩
                rw [if_pos (List.ne_nil_of_mem hmem)]
                exact ⟨rfl, rfl⟩

theorem bxFR_atomic (db : DB) (u : User) (us : List String)
    (toF : Option Nat) (n : Option String)
    (hviol : ∃ b ∈ db.boxes, b.boxUid ∈ uniqueStrings us ∧
             violates db (.bxFR u us toF n) b = true) :
    (boxesFacilityReceive db u us toF n).2.isOk = false ∧
    (boxesFacilityReceive db u us toF n).1 = db := by
  obtain ⟨b, hb, huid, hv⟩ := hviol
  simp only [boxesFacilityReceive]
  split
  · exact ⟨rfl, rfl⟩
  · split
    · exact ⟨rfl, rfl⟩
    · cases hto : (toF <|> u.facilityId) with
      | none => exact ⟨rfl, rfl⟩
      | some toFid =>
        dsimp only
        split
        · exact ⟨rfl, rfl⟩
        · cases htex : assertFacilityExists db toFid with
          | error e => exact ⟨rfl, rfl⟩
          | ok toFacility =>
            dsimp only
            split
            · exact ⟨rfl, rfl⟩
            · simp only [violates, Bool.or_eq_true, decide_eq_true_eq] at hv
              by_cases hst : b.status ≠ Status.IN_TRANSIT
              · have hmem : b ∈ (resolveBoxes db (uniqueStrings us)).filter
                    (fun c => decide (c.status ≠ Status.IN_TRANSIT)) :=
                  List.mem_filter.mpr ⟨mem_resolveBoxes.mpr ⟨hb, huid⟩,
                    by simpa using hst⟩
                rw [if_pos (List.ne_nil_of_mem hmem)]
                exact ⟨rfl, rfl⟩
              · split
                · exact ⟨rfl, rfl⟩
                · have hwd : (match lastDispatchFor db.events b.id with
                      | none => true
                      | some ev => decide (ev.toFacilityId ≠ some toFid)) = true := by
                    rcases hv with h | h
                    · exact absurd h hst
                    · cases hl : lastDispatchFor db.events b.id with
                      | none => rfl
                      | some ev =>
                        rw [hl] at h
                        simp only [decide_eq_true_eq] at h
                        rcases h with h | h
                        · rw [hto] at h; simpa using h
                        · rw [h] at hto; exact Option.noConfusion hto
                  have hmem : b ∈ (resolveBoxes db (uniqueStrings us)).filter
                      (fun c => match lastDispatchFor db.events c.id with
                        | none => true
                        | some ev => decide (ev.toFacilityId ≠ some toFid)) :=
                    List.mem_filter.mpr ⟨mem_resolveBoxes.mpr ⟨hb, huid⟩, hwd⟩
                  rw [if_pos (List.ne_nil_of_mem hmem)]
                  exact ⟨rfl, rfl⟩

/-- C1: For every bulk transfer operation (warehouse-receive, dispatch,
facility-receive — in both the transactions router and the boxes router) and
every batch of box identifiers, if any box of the batch fails its
precondition then the operation returns an error and the store is unchanged:
no box's status or `currentFacilityId` changes and no `BoxEvent` row is
appended for any box of the batch. -/
theorem claim_C1_bulk_precondition_atomicity (db : DB) (op : BulkOp)
    (hviol : ∃ b ∈ db.boxes, b.boxUid ∈ op.uids ∧ violates db op b = true) :
    (runBulk db op).2 ≠ none ∧ (runBulk db op).1 = db := by
  cases op with
  | txWR u us n =>
    obtain ⟨h1, h2⟩ := txWR_atomic db u us n (by simpa [BulkOp.uids] using hviol)
    simp only [runBulk]
    cases hres : txWarehouseReceive db u us n with
    | mk d r =>
      rw [hres] at h1 h2
      cases r with
      | ok v => exact Bool.noConfusion h1
      | error e => exact ⟨by simp, h2⟩
  | txDisp u us c n =>
    obtain ⟨h1, h2⟩ := txDispatch_atomic db u us c n
      (by simpa [BulkOp.uids] using hviol)
    simp only [runBulk]
    cases hres : txDispatch db u us c n with
    | mk d r =>
      rw [hres] at h1 h2
      cases r with
      | ok v => exact Bool.noConfusion h1
      | error e => exact ⟨by simp, h2⟩
  | txFR u us n =>
    obtain ⟨h1, h2⟩ := txFR_atomic db u us n (by simpa [BulkOp.uids] using hviol)
    simp only [runBulk]
    cases hres : txFacilityReceive db u us n with
    | mk d r =>
      rw [hres] at h1 h2
      cases r with
      | ok v => exact Bool.noConfusion h1
      | error e => exact ⟨by simp, h2⟩
  | bxDisp u us t f n =>
    obtain ⟨h1, h2⟩ := bxDisp_atomic db u us t f n
      (by simpa [BulkOp.uids] using hviol)
    simp only [runBulk]
    cases hres : boxesDispatch db u us t f n with
    | mk d r =>
      rw [hres] at h1 h2
      cases r with
      | ok v => exact Bool.noConfusion h1
      | error e => exact ⟨by simp, h2⟩
  | bxFR u us t n =>
    obtain ⟨h1, h2⟩ := bxFR_atomic db u us t n
      (by simpa [BulkOp.uids] using hviol)
    simp only [runBulk]
    cases hres : boxesFacilityReceive db u us t n with
    | mk d r =>
      rw [hres] at h1 h2
      cases r with
      | ok v => exact Bool.noConfusion h1
      | error e => exact ⟨by simp, h2⟩

/-! ## Concrete fixtures for witnesses and counterexamples -/

/-- A warehouse facility. -/
def exWarehouse : Facility :=
  { id := 1, code := "WH-A", name := "Main warehouse",
    ftype := .WAREHOUSE, warehouseId := none }

/-- A downstream facility owned by the warehouse. -/
def exFacility1 : Facility :=
  { id := 2, code := "FAC-1", name := "Clinic one",
    ftype := .FACILITY, warehouseId := some 1 }

/-- A second downstream facility owned by the warehouse. -/
def exFacility2 : Facility :=
  { id := 3, code := "FAC-2", name := "Clinic two",
    ftype := .FACILITY, warehouseId := some 1 }

/-- A box sitting in the warehouse. -/
def exBoxIW : Box :=
  { id := 10, boxUid := "ORD-1-1", orderId := 5, productId := 7,
    batchNo := "B1", expiryDate := 100, status := .IN_WAREHOUSE,
    currentFacilityId := some 1 }

/-- A box in transit, last dispatched to facility 2 (`exDB.events`). -/
def exBoxIT : Box :=
  { id := 11, boxUid := "ORD-1-2", orderId := 5, productId := 7,
    batchNo := "B1", expiryDate := 100, status := .IN_TRANSIT,
    currentFacilityId := none }

/-- A box already received at facility 2. -/
def exBoxIF : Box :=
  { id := 12, boxUid := "ORD-1-3", orderId := 5, productId := 7,
    batchNo := "B1", expiryDate := 100, status := .IN_FACILITY,
    currentFacilityId := some 2 }

/-- A small consistent store. -/
def exDB : DB :=
  { facilities := [exWarehouse, exFacility1, exFacility2],
    orders := [{ id := 5, orderNumber := "ORD-1", donorName := none }],
    products := [{ id := 7, code := "RUTF", name := "Therapeutic food" }],
    boxes := [exBoxIW, exBoxIT, exBoxIF],
    events := [{ boxId := 11, etype := .DISPATCH, performedByUserId := 100,
                 fromFacilityId := some 1, toFacilityId := some 2,
                 note := none, createdAt := 0 }],
    nextBoxId := 13, nextProductId := 8, clock := 1 }

/-- A warehouse officer assigned to the warehouse. -/
def exWOfficer : User :=
  { id := 100, role := .WAREHOUSE_OFFICER, facilityId := some 1 }

/-- A facility officer at facility 2 (the dispatch target). -/
def exFOfficer1 : User :=
  { id := 101, role := .FACILITY_OFFICER, facilityId := some 2 }

/-- A facility officer at facility 3 (not the dispatch target). -/
def exFOfficer2 : User :=
  { id := 102, role := .FACILITY_OFFICER, facilityId := some 3 }

/-- A clinician at facility 2. -/
def exClinician : User :=
  { id := 103, role := .CLINICIAN, facilityId := some 2 }

/-- Witness for C1: warehouse-receiving the IN_TRANSIT box fails and leaves
the store untouched. -/
theorem claim_C1_witness :
    (∃ b ∈ exDB.boxes,
        b.boxUid ∈ (BulkOp.txWR exWOfficer ["ORD-1-2"] none).uids ∧
        violates exDB (.txWR exWOfficer ["ORD-1-2"] none) b = true) ∧
    (runBulk exDB (.txWR exWOfficer ["ORD-1-2"] none)).2 ≠ none ∧
    (runBulk exDB (.txWR exWOfficer ["ORD-1-2"] none)).1 = exDB :=
  ⟨by decide, claim_C1_bulk_precondition_atomicity exDB _ (by decide)⟩

/-! ## Missing-identifier failures (claim C6) -/

theorem nodup_dedupFirstAux [DecidableEq α] (seen l : List α) :
    (dedupFirstAux seen l).Nodup := by
  induction l generalizing seen with
  | nil => simp [dedupFirstAux]
  | cons x xs ih =>
    by_cases hx : x ∈ seen
    · rw [dedupFirstAux, if_pos hx]; exact ih seen
    · rw [dedupFirstAux, if_neg hx]
      refine List.nodup_cons.mpr ⟨fun hmem => ?_, ih (x :: seen)⟩
      exact absurd (List.mem_cons_self x seen)
        ((mem_dedupFirstAux (x :: seen) xs x).mp hmem).2

/-- If the store's uids are unique and some requested uid resolves to no box,
then fewer boxes than uids resolve, and the computed `missing` list holds
exactly the unresolvable identifiers. -/
theorem resolve_missing {db : DB} {uids : List String} (hwf : db.WF)
    (hmiss : ∃ u ∈ uids, ∀ b ∈ db.boxes, b.boxUid ≠ u) :
    (resolveBoxes db uids).length ≠ uids.length ∧
    ∀ uid, uid ∈ uids.filter
        (fun u => decide (u ∉ (resolveBoxes db uids).map Box.boxUid)) ↔
      (uid ∈ uids ∧ ∀ b ∈ db.boxes, b.boxUid ≠ uid) := by
  obtain ⟨u, hu, hnobox⟩ := hmiss
  have hfound_sub : ∀ x ∈ (resolveBoxes db uids).map Box.boxUid, x ∈ uids := by
    intro x hx
    obtain ⟨b, hb, rfl⟩ := List.mem_map.mp hx
    exact (mem_resolveBoxes.mp hb).2
  have hfound_nd : ((resolveBoxes db uids).map Box.boxUid).Nodup := by
    have hsub : List.Sublist (resolveBoxes db uids) db.boxes :=
      List.filter_sublist _
    exact List.Sublist.nodup (List.Sublist.map Box.boxUid hsub) hwf.2
  have hu_not_found : u ∉ (resolveBoxes db uids).map Box.boxUid := by
    intro hx
    obtain ⟨b, hb, hbu⟩ := List.mem_map.mp hx
    exact hnobox b (mem_resolveBoxes.mp hb).1 hbu
  constructor
  · intro hlen
    have hsubE : ∀ x ∈ (resolveBoxes db uids).map Box.boxUid, x ∈ uids.erase u := by
      intro x hx
      refine (List.mem_erase_of_ne ?_).mpr (hfound_sub x hx)
      rintro rfl
      exact hu_not_found hx
    have hle := (List.subperm_of_subset hfound_nd hsubE).length_le
    rw [List.length_erase_of_mem hu] at hle
    have hlen' : (resolveBoxes db uids).length =
        ((resolveBoxes db uids).map Box.boxUid).length :=
      (List.length_map _ _).symm
    have hpos : 0 < uids.length := List.length_pos_of_mem hu
    omega
  · intro uid
    simp only [List.mem_filter, decide_eq_true_eq]
    constructor
    · rintro ⟨h1, h2⟩
      refine ⟨h1, fun b hb hbu => h2 ?_⟩
      exact List.mem_map.mpr ⟨b, mem_resolveBoxes.mpr ⟨hb, hbu ▸ h1⟩, hbu⟩
    · rintro ⟨h1, h2⟩
      refine ⟨h1, fun hx => ?_⟩
      obtain ⟨b, hb, hbu⟩ := List.mem_map.mp hx
      exact h2 b (mem_resolveBoxes.mp hb).1 hbu

theorem getBoxesOrThrow_missing {db : DB} {us : List String} (hwf : db.WF)
    (hmiss : ∃ u ∈ dedupUids us, ∀ b ∈ db.boxes, b.boxUid ≠ u) :
    ∃ e, getBoxesOrThrow db us = .error e ∧ e.kind = .notFound ∧
      e.status = 400 ∧
      ∀ uid, uid ∈ e.missing ↔
        (uid ∈ dedupUids us ∧ ∀ b ∈ db.boxes, b.boxUid ≠ uid) := by
  obtain ⟨hlen, hchar⟩ := resolve_missing hwf hmiss
  refine ⟨{ kind := .notFound, status := 400,
            message := "Some boxUids not found",
            missing := (dedupUids us).filter (fun u =>
              decide (u ∉ (resolveBoxes db (dedupUids us)).map Box.boxUid)) },
          ?_, rfl, rfl, hchar⟩
  simp only [getBoxesOrThrow]
  rw [if_pos hlen]

/-- The request-level gates of a bulk operation that run before box
resolution: role check, non-empty list, facility resolution and type check,
and (for dispatch) destination resolution, type and hierarchy checks. -/
def gatesPass (db : DB) : BulkOp → Bool
  | .txWR u us _ =>
    decide (u.role ∈ [Role.SUPER_ADMIN, Role.WAREHOUSE_OFFICER]) &&
    !us.isEmpty &&
    (match getMyFacilityOrThrow db u with
     | .ok f => decide (f.ftype = FacilityType.WAREHOUSE)
     | .error _ => false)
  | .txDisp u us c _ =>
    decide (u.role ∈ [Role.SUPER_ADMIN, Role.WAREHOUSE_OFFICER]) &&
    !us.isEmpty && decide (c ≠ "") &&
    (match getMyFacilityOrThrow db u with
     | .ok f =>
       decide (f.ftype = FacilityType.WAREHOUSE) &&
       (match db.facilities.find? (fun g => decide (g.code = strTrim c)) with
        | some t =>
          decide (t.ftype = FacilityType.FACILITY) &&
          (decide (u.role = Role.SUPER_ADMIN) ||
           decide (t.warehouseId = some f.id))
        | none => false)
     | .error _ => false)
  | .txFR u us _ =>
    decide (u.role ∈ [Role.SUPER_ADMIN, Role.FACILITY_OFFICER]) &&
    !us.isEmpty &&
    (match getMyFacilityOrThrow db u with
     | .ok f => decide (f.ftype = FacilityType.FACILITY)
     | .error _ => false)
  | .bxDisp u us toF fromF _ =>
    decide (u.role ∈ [Role.SUPER_ADMIN, Role.WAREHOUSE_OFFICER]) &&
    !(uniqueStrings us).isEmpty &&
    (match toF with
     | some toFid =>
       (match fromF <|> u.facilityId with
        | some fromFid =>
          (match assertFacilityExists db fromFid with
           | .ok _ =>
             (match assertFacilityExists db toFid with
              | .ok _ => true
              | .error _ => false)
           | .error _ => false)
        | none => false)
     | none => false)
  | .bxFR u us toF _ =>
    decide (u.role ∈ [Role.SUPER_ADMIN, Role.FACILITY_OFFICER]) &&
    !(uniqueStrings us).isEmpty &&
    (match toF <|> u.facilityId with
     | some toFid =>
       !(decide (u.role = Role.FACILITY_OFFICER) &&
         decide (u.facilityId ≠ some toFid)) &&
       (match assertFacilityExists db toFid with
        | .ok _ => true
        | .error _ => false)
     | none => false)

/-- C6 (amended): for the five bulk transfer operations that resolve their
batch before mutating, if some identifier of the normalized batch (trimmed
and de-duplicated; the boxes router additionally drops entries that trim to
empty) resolves to no box, and the request passes its earlier role/facility
gates, the whole batch fails with the NotFoundError listing exactly the
unresolvable identifiers, and the store is unchanged. -/
theorem claim_C6_missing_ids_fail_batch (db : DB) (op : BulkOp) (hwf : db.WF)
    (hgate : gatesPass db op = true)
    (hmiss : ∃ uid ∈ op.uids, ∀ b ∈ db.boxes, b.boxUid ≠ uid) :
    ∃ e, (runBulk db op).2 = some e ∧ e.kind = .notFound ∧ e.status = 400 ∧
      (∀ uid, uid ∈ e.missing ↔
        uid ∈ op.uids ∧ ∀ b ∈ db.boxes, b.boxUid ≠ uid) ∧
      (runBulk db op).1 = db := by
  cases op with
  | txWR u us n =>
    simp only [gatesPass, Bool.and_eq_true, decide_eq_true_eq,
      Bool.not_eq_true'] at hgate
    obtain ⟨⟨hrole, hne⟩, hfacb⟩ := hgate
    obtain ⟨e0, he, hk, hs, hm⟩ := getBoxesOrThrow_missing hwf
      (by simpa [BulkOp.uids] using hmiss)
    simp only [runBulk, txWarehouseReceive, BulkOp.uids]
    rw [if_neg (not_not_intro hrole), if_neg (by simp [hne])]
    cases hfac : getMyFacilityOrThrow db u with
    | error ef => simp [hfac] at hfacb
    | ok f =>
      rw [hfac] at hfacb
      dsimp only
      rw [if_neg (not_not_intro (by simpa using hfacb)), he]
      exact ⟨e0, rfl, hk, hs, hm, rfl⟩
  | txFR u us n =>
    simp only [gatesPass, Bool.and_eq_true, decide_eq_true_eq,
      Bool.not_eq_true'] at hgate
    obtain ⟨⟨hrole, hne⟩, hfacb⟩ := hgate
    obtain ⟨e0, he, hk, hs, hm⟩ := getBoxesOrThrow_missing hwf
      (by simpa [BulkOp.uids] using hmiss)
    simp only [runBulk, txFacilityReceive, BulkOp.uids]
    rw [if_neg (not_not_intro hrole), if_neg (by simp [hne])]
    cases hfac : getMyFacilityOrThrow db u with
    | error ef => simp [hfac] at hfacb
    | ok f =>
      rw [hfac] at hfacb
      dsimp only
      rw [if_neg (not_not_intro (by simpa using hfacb)), he]
      exact ⟨e0, rfl, hk, hs, hm, rfl⟩
  | txDisp u us c n =>
    simp only [gatesPass, Bool.and_eq_true, decide_eq_true_eq,
      Bool.not_eq_true'] at hgate
    obtain ⟨⟨⟨hrole, hne⟩, hcode⟩, hfacb⟩ := hgate
    obtain ⟨e0, he, hk, hs, hm⟩ := getBoxesOrThrow_missing hwf
      (by simpa [BulkOp.uids] using hmiss)
    simp only [runBulk, txDispatch, BulkOp.uids]
    rw [if_neg (not_not_intro hrole), if_neg (by simp [hne]), if_neg hcode]
    cases hfac : getMyFacilityOrThrow db u with
    | error ef => simp [hfac] at hfacb
    | ok f =>
      rw [hfac] at hfacb
      dsimp only
      simp only [Bool.and_eq_true, decide_eq_true_eq] at hfacb
      obtain ⟨hft, hdest⟩ := hfacb
      rw [if_neg (not_not_intro hft)]
      cases hfind : db.facilities.find? (fun g => decide (g.code = strTrim c)) with
      | none => simp [hfind] at hdest
      | some t =>
        rw [hfind] at hdest
        dsimp only
        simp only [Bool.and_eq_true, Bool.or_eq_true, decide_eq_true_eq] at hdest
        obtain ⟨htf, hhier⟩ := hdest
        rw [if_neg (not_not_intro htf),
          if_neg (by rintro ⟨ha, hw⟩; rcases hhier with h | h; exacts [ha h, hw h]),
          he]
        exact ⟨e0, rfl, hk, hs, hm, rfl⟩
  | bxDisp u us toF fromF n =>
    simp only [gatesPass, Bool.and_eq_true, decide_eq_true_eq,
      Bool.not_eq_true'] at hgate
    obtain ⟨⟨hrole, hne⟩, hrest⟩ := hgate
    obtain ⟨hlen, hchar⟩ := resolve_missing hwf
      (by simpa [BulkOp.uids] using hmiss)
    simp only [runBulk, boxesDispatch, BulkOp.uids]
    rw [if_neg (not_not_intro hrole), if_neg (by simp [hne])]
    cases toF with
    | none => simp at hrest
    | some toFid =>
      dsimp only
      cases hfrom : fromF <|> u.facilityId with
      | none => simp [hfrom] at hrest
      | some fromFid =>
        rw [hfrom] at hrest
        dsimp only at hrest ⊢
        cases hfex : assertFacilityExists db fromFid with
        | error ef => simp [hfex] at hrest
        | ok fromFacility =>
          rw [hfex] at hrest
          dsimp only at hrest ⊢
          cases htex : assertFacilityExists db toFid with
          | error ef => simp [htex] at hrest
          | ok toFacility =>
            dsimp only
            rw [if_pos hlen]
            exact ⟨_, rfl, rfl, rfl, hchar, rfl⟩
  | bxFR u us toF n =>
    simp only [gatesPass, Bool.and_eq_true, decide_eq_true_eq,
      Bool.not_eq_true'] at hgate
    obtain ⟨⟨hrole, hne⟩, hrest⟩ := hgate
    obtain ⟨hlen, hchar⟩ := resolve_missing hwf
      (by simpa [BulkOp.uids] using hmiss)
    simp only [runBulk, boxesFacilityReceive, BulkOp.uids]
    rw [if_neg (not_not_intro hrole), if_neg (by simp [hne])]
    cases hto : toF <|> u.facilityId with
    | none => simp [hto] at hrest
    | some toFid =>
      rw [hto] at hrest
      dsimp only
      simp only [Bool.and_eq_true, Bool.not_eq_true', Bool.and_eq_false_iff,
        decide_eq_true_eq, decide_eq_false_iff_not] at hrest
      obtain ⟨hscope, hassert⟩ := hrest
      rw [if_neg (by
        rintro ⟨h1, h2⟩
        rcases hscope with h | h
        · exact absurd h1 h
        · exact absurd h2 (by simpa using h))]
      cases htex : assertFacilityExists db toFid with
      | error ef => simp [htex] at hassert
      | ok toFacility =>
        dsimp only
        rw [if_pos hlen]
        exact ⟨_, rfl, rfl, rfl, hchar, rfl⟩

/-- Counterexample for C6 as stated: the simple-variant transactions dispatch
does not length-check its lookup, so an unresolvable boxUid is silently
ignored: the request succeeds (even reporting a count of 2), the one resolved
box is dispatched, and no NotFoundError is produced. -/
theorem claim_C6_counterexample :
    (∀ b ∈ exDB.boxes, b.boxUid ≠ "NO-SUCH-UID") ∧
    (simpleDispatch exDB exWOfficer ["ORD-1-1", "NO-SUCH-UID"] "FAC-1" none).2 =
      .ok { count := 2, toFacility := "FAC-1" } ∧
    (simpleDispatch exDB exWOfficer ["ORD-1-1", "NO-SUCH-UID"] "FAC-1"
        none).1.boxes.map Box.status =
      [.IN_TRANSIT, .IN_TRANSIT, .IN_FACILITY] := by decide

/-- Witness for C6 (amended): a warehouse-receive batch with one unresolvable
identifier fails with the missing list and leaves the store untouched. -/
theorem claim_C6_witness :
    (exDB.WF ∧ gatesPass exDB (.txWR exWOfficer ["ORD-1-1", "NO-SUCH-UID"] none) = true ∧
     ∃ uid ∈ (BulkOp.txWR exWOfficer ["ORD-1-1", "NO-SUCH-UID"] none).uids,
       ∀ b ∈ exDB.boxes, b.boxUid ≠ uid) ∧
    ∃ e, (runBulk exDB (.txWR exWOfficer ["ORD-1-1", "NO-SUCH-UID"] none)).2 = some e ∧
      e.kind = .notFound ∧ e.status = 400 ∧
      (∀ uid, uid ∈ e.missing ↔
        uid ∈ (BulkOp.txWR exWOfficer ["ORD-1-1", "NO-SUCH-UID"] none).uids ∧
        ∀ b ∈ exDB.boxes, b.boxUid ≠ uid) ∧
      (runBulk exDB (.txWR exWOfficer ["ORD-1-1", "NO-SUCH-UID"] none)).1 = exDB :=
  ⟨⟨by decide, by decide, by decide⟩,
   claim_C6_missing_ids_fail_batch exDB _ (by decide) (by decide) (by decide)⟩

/-- `uniqueStrings` in the boxes router drops every entry that trims to the
empty string, so a blank identifier in a batch is ignored rather than
reported missing: the request behaves exactly as if the blank were absent
(here the one real uid is dispatched despite the blank second entry). -/
theorem boxesDispatch_blank_ignored :
    uniqueStrings ["ORD-1-1", " "] = ["ORD-1-1"] ∧
    boxesDispatch exDB exWOfficer ["ORD-1-1", " "] (some 2) (some 1) none =
      boxesDispatch exDB exWOfficer ["ORD-1-1"] (some 2) (some 1) none ∧
    ((boxesDispatch exDB exWOfficer ["ORD-1-1", " "] (some 2) (some 1)
        none).1.boxes.map Box.status) =
      [.IN_TRANSIT, .IN_TRANSIT, .IN_FACILITY] :=
  ⟨by decide, by decide, by decide⟩

/-- `getBoxesOrThrow` in the transactions router performs no blank filtering:
an entry that trims to the empty string is kept as an identifier and fails
the batch as missing. -/
theorem getBoxesOrThrow_blank_missing :
    dedupUids ["ORD-1-1", " "] = ["ORD-1-1", ""] ∧
    getBoxesOrThrow exDB ["ORD-1-1", " "] =
      .error { kind := .notFound, status := 400,
               message := "Some boxUids not found", missing := [""] } :=
  ⟨by decide, by decide⟩

/-! ## Characterization of the successful transaction loops -/

theorem forall2_map_self {α : Type} {R : α → α → Prop} {l : List α}
    {g : α → α} (h : ∀ x ∈ l, R x (g x)) : List.Forall₂ R l (l.map g) := by
  induction l with
  | nil => exact List.Forall₂.nil
  | cons x xs ih =>
    exact List.Forall₂.cons (h x (List.mem_cons_self x xs))
      (ih fun y hy => h y (List.mem_cons_of_mem x hy))

theorem dispatchLoop_char (userId fromId toId : Nat) (note : Option String) :
    ∀ (bs : List Box) (d d' : DB),
    dispatchLoop userId fromId toId note bs d = .ok d' →
    (∀ b ∈ bs, ∀ x ∈ d.boxes, x.id = b.id → x = b) →
    (bs.map Box.id).Nodup →
    d'.boxes = d.boxes.map (fun x =>
      if x.id ∈ bs.map Box.id then
        { x with status := .IN_TRANSIT, currentFacilityId := none } else x) ∧
    (∀ b ∈ bs, b.status = Status.IN_WAREHOUSE ∧
               b.currentFacilityId = some fromId) ∧
    d'.events = d.events ++
      bs.map (fun b => dispatchEvent b userId fromId toId note d.clock) ∧
    d'.facilities = d.facilities ∧ d'.orders = d.orders ∧
    d'.products = d.products ∧ d'.nextBoxId = d.nextBoxId ∧
    d'.nextProductId = d.nextProductId ∧ d'.clock = d.clock := by
  intro bs
  induction bs with
  | nil =>
    intro d d' hok _ _
    simp only [dispatchLoop] at hok
    obtain rfl : d = d' := by simpa using hok
    exact ⟨by simp, by simp, by simp, rfl, rfl, rfl, rfl, rfl, rfl⟩
  | cons b bs ih =>
    intro d d' hok h1 h2
    by_cases hpre : b.status ≠ Status.IN_WAREHOUSE ∨
        b.currentFacilityId ≠ some fromId
    · simp only [dispatchLoop, if_pos hpre] at hok
      exact absurd hok (by simp)
    · push_neg at hpre
      have hcond : ¬(b.status ≠ Status.IN_WAREHOUSE ∨
          b.currentFacilityId ≠ some fromId) := by
        rintro (h | h)
        · exact h hpre.1
        · exact h hpre.2
      simp only [dispatchLoop, if_neg hcond] at hok
      have hnin : b.id ∉ bs.map Box.id := (List.nodup_cons.mp h2).1
      have h2' : (bs.map Box.id).Nodup := (List.nodup_cons.mp h2).2
      have h1' : ∀ c ∈ bs, ∀ x ∈ (updateBoxRow d.boxes b.id
          (fun x => { x with status := .IN_TRANSIT,
                             currentFacilityId := none })),
          x.id = c.id → x = c := by
        intro c hc x hx hid
        obtain ⟨y, hy, rfl⟩ := List.mem_map.mp hx
        by_cases hyb : y.id = b.id
        · exfalso
          have hyc : y.id = c.id := by simpa [hyb] using hid
          have hbc : b.id = c.id := by rw [← hyb]; exact hyc
          exact hnin (by rw [hbc]; exact List.mem_map_of_mem Box.id hc)
        · rw [if_neg hyb] at hid ⊢
          exact h1 c (List.mem_cons_of_mem b hc) y hy hid
      obtain ⟨hboxes, hprev, hevents, hf, ho, hp, hn1, hn2, hck⟩ :=
        ih _ _ hok h1' h2'
      refine ⟨?_, ?_, ?_, hf, ho, hp, hn1, hn2, hck⟩
      · rw [hboxes]
        show (updateBoxRow d.boxes b.id _).map _ = _
        rw [updateBoxRow, List.map_map]
        refine List.map_congr_left fun x hx => ?_
        by_cases hxb : x.id = b.id
        · simp [Function.comp, hxb, hnin, List.mem_cons]
        · simp [Function.comp, hxb, List.mem_cons]
      · exact fun c hc => (List.mem_cons.mp hc).elim
          (fun h => h ▸ hpre) (fun h => hprev c h)
      · rw [hevents]
        show (d.events ++ [_]) ++ _ = _
        rw [List.append_assoc]
        rfl

/-- The idempotent-skip condition of warehouse-receive: already received in
this warehouse. -/
def wrSkip (facId : Nat) (b : Box) : Bool :=
  decide (b.status = Status.IN_WAREHOUSE ∧ b.currentFacilityId = some facId)

theorem wrLoop_char (userId facId : Nat) (note : Option String) :
    ∀ (bs : List Box) (d d' : DB) (up sk up' sk' : List String),
    wrLoop userId facId note bs d up sk = .ok (d', up', sk') →
    (∀ b ∈ bs, ∀ x ∈ d.boxes, x.id = b.id → x = b) →
    (bs.map Box.id).Nodup →
    d'.boxes = d.boxes.map (fun x =>
      if x.id ∈ ((bs.filter (fun c => !wrSkip facId c)).map Box.id) then
        { x with status := .IN_WAREHOUSE, currentFacilityId := some facId }
      else x) ∧
    (∀ b ∈ bs, wrSkip facId b = true ∨ b.status = Status.CREATED) ∧
    d'.events = d.events ++
      (bs.filter (fun c => !wrSkip facId c)).map
        (fun b => wrEvent b userId facId note d.clock) ∧
    up' = up ++ (bs.filter (fun c => !wrSkip facId c)).map Box.boxUid ∧
    sk' = sk ++ (bs.filter (fun c => wrSkip facId c)).map Box.boxUid ∧
    d'.facilities = d.facilities ∧ d'.orders = d.orders ∧
    d'.products = d.products ∧ d'.nextBoxId = d.nextBoxId ∧
    d'.nextProductId = d.nextProductId ∧ d'.clock = d.clock := by
  intro bs
  induction bs with
  | nil =>
    intro d d' up sk up' sk' hok _ _
    simp only [wrLoop] at hok
    obtain ⟨rfl, rfl, rfl⟩ :
        d = d' ∧ up = up' ∧ sk = sk' := by simpa using hok
    exact ⟨by simp, by simp, by simp, by simp, by simp,
      rfl, rfl, rfl, rfl, rfl, rfl⟩
  | cons b bs ih =>
    intro d d' up sk up' sk' hok h1 h2
    have hnin : b.id ∉ bs.map Box.id := (List.nodup_cons.mp h2).1
    have h2' : (bs.map Box.id).Nodup := (List.nodup_cons.mp h2).2
    by_cases hskip : b.status = Status.IN_WAREHOUSE ∧
        b.currentFacilityId = some facId
    · simp only [wrLoop, if_pos hskip] at hok
      have h1t : ∀ c ∈ bs, ∀ x ∈ d.boxes, x.id = c.id → x = c :=
        fun c hc => h1 c (List.mem_cons_of_mem b hc)
      obtain ⟨hboxes, hprev, hevents, hup, hsk, hf, ho, hp, hn1, hn2, hck⟩ :=
        ih _ _ _ _ _ _ hok h1t h2'
      have hsb : wrSkip facId b = true := by simp [wrSkip, hskip]
      refine ⟨?_, ?_, ?_, ?_, ?_, hf, ho, hp, hn1, hn2, hck⟩
      · rw [hboxes, List.filter_cons_of_neg (by simp [hsb])]
      · exact fun c hc => (List.mem_cons.mp hc).elim
          (fun h => Or.inl (h ▸ hsb)) (fun h => hprev c h)
      · rw [hevents, List.filter_cons_of_neg (by simp [hsb])]
      · rw [hup, List.filter_cons_of_neg (by simp [hsb])]
      · rw [hsk, List.filter_cons_of_pos (by simp [hsb]),
          List.map_cons, List.append_assoc]
        rfl
    · by_cases hcr : b.status ≠ Status.CREATED
      · simp only [wrLoop, if_neg hskip, if_pos hcr] at hok
        exact absurd hok (by simp)
      · push_neg at hcr
        simp only [wrLoop, if_neg hskip, if_neg (not_not_intro hcr)] at hok
        have hsb : wrSkip facId b = false := by
          simp only [wrSkip, decide_eq_false_iff_not]
          exact hskip
        have h1' : ∀ c ∈ bs, ∀ x ∈ (updateBoxRow d.boxes b.id
            (fun x => { x with status := .IN_WAREHOUSE,
                               currentFacilityId := some facId })),
            x.id = c.id → x = c := by
          intro c hc x hx hid
          obtain ⟨y, hy, rfl⟩ := List.mem_map.mp hx
          by_cases hyb : y.id = b.id
          · exfalso
            have hyc : y.id = c.id := by simpa [hyb] using hid
            have hbc : b.id = c.id := by rw [← hyb]; exact hyc
            exact hnin (by rw [hbc]; exact List.mem_map_of_mem Box.id hc)
          · rw [if_neg hyb] at hid ⊢
            exact h1 c (List.mem_cons_of_mem b hc) y hy hid
        obtain ⟨hboxes, hprev, hevents, hup, hsk, hf, ho, hp, hn1, hn2, hck⟩ :=
          ih _ _ _ _ _ _ hok h1' h2'
        refine ⟨?_, ?_, ?_, ?_, ?_, hf, ho, hp, hn1, hn2, hck⟩
        · rw [hboxes, List.filter_cons_of_pos (by simp [hsb]), List.map_cons]
          show (updateBoxRow d.boxes b.id _).map _ = _
          rw [updateBoxRow, List.map_map]
          refine List.map_congr_left fun x hx => ?_
          simp only [Function.comp_apply]
          by_cases hxb : x.id = b.id
          · rw [if_pos hxb]
            dsimp only
            rw [if_pos (List.mem_cons.mpr (Or.inl hxb))]
            split <;> rfl
          · rw [if_neg hxb]
            by_cases hxs : x.id ∈ (bs.filter (fun c => !wrSkip facId c)).map Box.id
            · rw [if_pos hxs, if_pos (List.mem_cons.mpr (Or.inr hxs))]
            · rw [if_neg hxs, if_neg (by
                simp only [List.mem_cons]
                rintro (h | h)
                · exact hxb h
                · exact hxs h)]
        · exact fun c hc => (List.mem_cons.mp hc).elim
            (fun h => Or.inr (h ▸ hcr)) (fun h => hprev c h)
        · rw [hevents, List.filter_cons_of_pos (by simp [hsb]),
            List.map_cons]
          show (d.events ++ [_]) ++ _ = _
          rw [List.append_assoc]
          rfl
        · rw [hup, List.filter_cons_of_pos (by simp [hsb]),
            List.map_cons, List.append_assoc]
          rfl
        · rw [hsk, List.filter_cons_of_neg (by simp [hsb])]

theorem frLoop_char (userId : Nat) (role : Role) (myId : Nat)
    (note : Option String) (lastDispatch : Nat → Option BoxEvent) :
    ∀ (bs : List Box) (d d' : DB),
    frLoop userId role myId note lastDispatch bs d = .ok d' →
    (∀ b ∈ bs, ∀ x ∈ d.boxes, x.id = b.id → x = b) →
    (bs.map Box.id).Nodup →
    d'.boxes = d.boxes.map (fun x =>
      if x.id ∈ bs.map Box.id then
        { x with status := .IN_FACILITY, currentFacilityId := some myId }
      else x) ∧
    (∀ b ∈ bs, b.status = Status.IN_TRANSIT ∧
      ∃ ev, lastDispatch b.id = some ev ∧
        (role = Role.SUPER_ADMIN ∨ ev.toFacilityId = some myId)) ∧
    d'.events = d.events ++ bs.map (fun b =>
      frEvent b userId ((lastDispatch b.id).bind BoxEvent.fromFacilityId)
        myId note d.clock) ∧
    d'.facilities = d.facilities ∧ d'.orders = d.orders ∧
    d'.products = d.products ∧ d'.nextBoxId = d.nextBoxId ∧
    d'.nextProductId = d.nextProductId ∧ d'.clock = d.clock := by
  intro bs
  induction bs with
  | nil =>
    intro d d' hok _ _
    simp only [frLoop] at hok
    obtain rfl : d = d' := by simpa using hok
    exact ⟨by simp, by simp, by simp, rfl, rfl, rfl, rfl, rfl, rfl⟩
  | cons b bs ih =>
    intro d d' hok h1 h2
    have hnin : b.id ∉ bs.map Box.id := (List.nodup_cons.mp h2).1
    have h2' : (bs.map Box.id).Nodup := (List.nodup_cons.mp h2).2
    by_cases ht : b.status ≠ Status.IN_TRANSIT
    · simp only [frLoop, if_pos ht] at hok
      exact absurd hok (by simp)
    · push_neg at ht
      cases hl : lastDispatch b.id with
      | none =>
        simp only [frLoop, if_neg (not_not_intro ht), hl] at hok
        exact absurd hok (by simp)
      | some ev =>
        by_cases hmis : role ≠ Role.SUPER_ADMIN ∧ ev.toFacilityId ≠ some myId
        · simp only [frLoop, if_neg (not_not_intro ht), hl, if_pos hmis] at hok
          exact absurd hok (by simp)
        · simp only [frLoop, if_neg (not_not_intro ht), hl,
            if_neg hmis] at hok
          have hdest : role = Role.SUPER_ADMIN ∨ ev.toFacilityId = some myId := by
            by_cases ha : role = Role.SUPER_ADMIN
            · exact Or.inl ha
            · refine Or.inr (by_contra fun hc => hmis ⟨ha, hc⟩)
          have h1' : ∀ c ∈ bs, ∀ x ∈ (updateBoxRow d.boxes b.id
              (fun x => { x with status := .IN_FACILITY,
                                 currentFacilityId := some myId })),
              x.id = c.id → x = c := by
            intro c hc x hx hid
            obtain ⟨y, hy, rfl⟩ := List.mem_map.mp hx
            by_cases hyb : y.id = b.id
            · exfalso
              have hyc : y.id = c.id := by simpa [hyb] using hid
              have hbc : b.id = c.id := by rw [← hyb]; exact hyc
              exact hnin (by rw [hbc]; exact List.mem_map_of_mem Box.id hc)
            · rw [if_neg hyb] at hid ⊢
              exact h1 c (List.mem_cons_of_mem b hc) y hy hid
          obtain ⟨hboxes, hprev, hevents, hf, ho, hp, hn1, hn2, hck⟩ :=
            ih _ _ hok h1' h2'
          refine ⟨?_, ?_, ?_, hf, ho, hp, hn1, hn2, hck⟩
          · rw [hboxes]
            show (updateBoxRow d.boxes b.id _).map _ = _
            rw [updateBoxRow, List.map_map]
            refine List.map_congr_left fun x hx => ?_
            by_cases hxb : x.id = b.id
            · simp [Function.comp, hxb, hnin, List.mem_cons]
            · simp [Function.comp, hxb, List.mem_cons]
          · exact fun c hc => (List.mem_cons.mp hc).elim
              (fun h => h ▸ ⟨ht, ev, hl, hdest⟩) (fun h => hprev c h)
          · rw [hevents, List.map_cons]
            show (d.events ++ [_]) ++ _ = _
            rw [List.append_assoc]
            simp only [hl, Option.bind]
            rfl

/-! ## The state machine only moves forward (claim C2) -/

/-- One operation relates each box row to its successor: either untouched, or
advanced exactly one step along the status chain (id and uid unchanged). -/
def StepRel (x x' : Box) : Prop :=
  x' = x ∨ (x'.id = x.id ∧ x'.boxUid = x.boxUid ∧
    nextStatus x.status = some x'.status)

/-- A sequence of operations never moves a box's status backwards. -/
def RankRel (x x' : Box) : Prop :=
  x'.id = x.id ∧ x'.boxUid = x.boxUid ∧
  statusRank x.status ≤ statusRank x'.status

theorem resolve_h1 {db : DB} (hwf : db.WF) (uids : List String) :
    (∀ b ∈ resolveBoxes db uids, ∀ x ∈ db.boxes, x.id = b.id → x = b) ∧
    ((resolveBoxes db uids).map Box.id).Nodup := by
  constructor
  · intro b hb x hx hid
    exact List.inj_on_of_nodup_map hwf.1 hx (mem_resolveBoxes.mp hb).1 hid
  · exact List.Sublist.nodup
      (List.Sublist.map Box.id (List.filter_sublist _)) hwf.1

theorem forall2_step_refl (l : List Box) : List.Forall₂ StepRel l l :=
  List.forall₂_same.mpr fun _ _ => Or.inl rfl

theorem applyTxOp_step (db : DB) (hwf : db.WF) :
    ∀ op : TxOp, List.Forall₂ StepRel db.boxes (applyTxOp db op).boxes := by
  intro op
  cases op with
  | wr u us n =>
    simp only [applyTxOp, txWarehouseReceive]
    split
    · exact forall2_step_refl _
    · split
      · exact forall2_step_refl _
      · cases hfac : getMyFacilityOrThrow db u with
        | error e => exact forall2_step_refl _
        | ok myFacility =>
          dsimp only
          split
          · exact forall2_step_refl _
          · cases hget : getBoxesOrThrow db us with
            | error e => exact forall2_step_refl _
            | ok boxes =>
              dsimp only
              obtain rfl := getBoxesOrThrow_ok hget
              cases hrun : wrLoop u.id myFacility.id n
                  (resolveBoxes db (dedupUids us)) db [] [] with
              | error e => exact forall2_step_refl _
              | ok r =>
                obtain ⟨d, up', sk'⟩ := r
                dsimp only
                obtain ⟨hb1, hb2⟩ := resolve_h1 hwf (dedupUids us)
                obtain ⟨hboxes, hprev, -⟩ :=
                  wrLoop_char u.id myFacility.id n _ db d [] [] up' sk'
                    hrun hb1 hb2
                show List.Forall₂ StepRel db.boxes d.boxes
                rw [hboxes]
                refine forall2_map_self fun x hx => ?_
                by_cases hmem : x.id ∈
                    (((resolveBoxes db (dedupUids us)).filter
                      (fun c => !wrSkip myFacility.id c)).map Box.id)
                · obtain ⟨b, hbf, hbid⟩ := List.mem_map.mp hmem
                  have hbbs := List.mem_of_mem_filter hbf
                  have hxb : x = b := hb1 b hbbs x hx hbid.symm
                  have hbsC : b.status = Status.CREATED := by
                    rcases hprev b hbbs with h | h
                    · have hno := (List.mem_filter.mp hbf).2
                      rw [h] at hno
                      exact Bool.noConfusion hno
                    · exact h
                  rw [if_pos hmem]
                  refine Or.inr ⟨rfl, rfl, ?_⟩
                  rw [hxb, hbsC]
                  rfl
                · rw [if_neg hmem]
                  exact Or.inl rfl
  | disp u us c n =>
    simp only [applyTxOp, txDispatch]
    split
    · exact forall2_step_refl _
    · split
      · exact forall2_step_refl _
      · split
        · exact forall2_step_refl _
        · cases hfac : getMyFacilityOrThrow db u with
          | error e => exact forall2_step_refl _
          | ok fromFacility =>
            dsimp only
            split
            · exact forall2_step_refl _
            · cases hdest : db.facilities.find?
                  (fun f => decide (f.code = strTrim c)) with
              | none => exact forall2_step_refl _
              | some toFacility =>
                dsimp only
                split
                · exact forall2_step_refl _
                · split
                  · exact forall2_step_refl _
                  · cases hget : getBoxesOrThrow db us with
                    | error e => exact forall2_step_refl _
                    | ok boxes =>
                      dsimp only
                      obtain rfl := getBoxesOrThrow_ok hget
                      cases hrun : dispatchLoop u.id fromFacility.id
                          toFacility.id n
                          (resolveBoxes db (dedupUids us)) db with
                      | error e => exact forall2_step_refl _
                      | ok d =>
                        dsimp only
                        obtain ⟨hb1, hb2⟩ := resolve_h1 hwf (dedupUids us)
                        obtain ⟨hboxes, hprev, -⟩ :=
                          dispatchLoop_char u.id fromFacility.id toFacility.id
                            n _ db d hrun hb1 hb2
                        show List.Forall₂ StepRel db.boxes d.boxes
                        rw [hboxes]
                        refine forall2_map_self fun x hx => ?_
                        by_cases hmem : x.id ∈
                            (resolveBoxes db (dedupUids us)).map Box.id
                        · obtain ⟨b, hbbs, hbid⟩ := List.mem_map.mp hmem
                          have hxb : x = b := hb1 b hbbs x hx hbid.symm
                          rw [if_pos hmem]
                          refine Or.inr ⟨rfl, rfl, ?_⟩
                          rw [hxb, (hprev b hbbs).1]
                          rfl
                        · rw [if_neg hmem]
                          exact Or.inl rfl
  | fr u us n =>
    simp only [applyTxOp, txFacilityReceive]
    split
    · exact forall2_step_refl _
    · split
      · exact forall2_step_refl _
      · cases hfac : getMyFacilityOrThrow db u with
        | error e => exact forall2_step_refl _
        | ok myFacility =>
          dsimp only
          split
          · exact forall2_step_refl _
          · cases hget : getBoxesOrThrow db us with
            | error e => exact forall2_step_refl _
            | ok boxes =>
              dsimp only
              obtain rfl := getBoxesOrThrow_ok hget
              cases hrun : frLoop u.id u.role myFacility.id n
                  (lastDispatchFor db.events)
                  (resolveBoxes db (dedupUids us)) db with
              | error e => exact forall2_step_refl _
              | ok d =>
                dsimp only
                obtain ⟨hb1, hb2⟩ := resolve_h1 hwf (dedupUids us)
                obtain ⟨hboxes, hprev, -⟩ :=
                  frLoop_char u.id u.role myFacility.id n
                    (lastDispatchFor db.events) _ db d hrun hb1 hb2
                show List.Forall₂ StepRel db.boxes d.boxes
                rw [hboxes]
                refine forall2_map_self fun x hx => ?_
                by_cases hmem : x.id ∈
                    (resolveBoxes db (dedupUids us)).map Box.id
                · obtain ⟨b, hbbs, hbid⟩ := List.mem_map.mp hmem
                  have hxb : x = b := hb1 b hbbs x hx hbid.symm
                  rw [if_pos hmem]
                  refine Or.inr ⟨rfl, rfl, ?_⟩
                  rw [hxb, (hprev b hbbs).1]
                  rfl
                · rw [if_neg hmem]
                  exact Or.inl rfl
  | dispense u uid n =>
    simp only [applyTxOp, txDispense]
    split
    · exact forall2_step_refl _
    · split
      · exact forall2_step_refl _
      · cases hfac : getMyFacilityOrThrow db u with
        | error e => exact forall2_step_refl _
        | ok myFacility =>
          dsimp only
          split
          · exact forall2_step_refl _
          · cases hfind : db.boxes.find?
                (fun b => decide (b.boxUid = strTrim uid)) with
            | none => exact forall2_step_refl _
            | some box =>
              dsimp only
              split
              · exact forall2_step_refl _
              · rename_i hpre
                push_neg at hpre
                show List.Forall₂ StepRel db.boxes
                  (updateBoxRow db.boxes box.id (fun x =>
                    { x with status := .DISPENSED }))
                have hboxmem : box ∈ db.boxes :=
                  List.mem_of_find?_eq_some hfind
                refine forall2_map_self fun x hx => ?_
                by_cases hxb : x.id = box.id
                · have hxbox : x = box :=
                    List.inj_on_of_nodup_map hwf.1 hx hboxmem hxb
                  rw [if_pos hxb]
                  refine Or.inr ⟨rfl, rfl, ?_⟩
                  rw [hxbox, hpre.1]
                  rfl
                · rw [if_neg hxb]
                  exact Or.inl rfl

theorem step_to_rank {x x' : Box} (h : StepRel x x') : RankRel x x' := by
  rcases h with rfl | ⟨h1, h2, h3⟩
  · exact ⟨rfl, rfl, le_refl _⟩
  · refine ⟨h1, h2, ?_⟩
    cases hx : x.status <;> rw [hx] at h3 <;>
      simp only [nextStatus] at h3 <;>
      first
        | exact Option.noConfusion h3
        | (injection h3 with h3; rw [← h3]; decide)

theorem rank_trans {x y z : Box} (h1 : RankRel x y) (h2 : RankRel y z) :
    RankRel x z :=
  ⟨h2.1.trans h1.1, h2.2.1.trans h1.2.1, h1.2.2.trans h2.2.2⟩

theorem forall2_rank_trans :
    ∀ {l1 l2 l3 : List Box}, List.Forall₂ RankRel l1 l2 →
    List.Forall₂ RankRel l2 l3 → List.Forall₂ RankRel l1 l3 := by
  intro l1 l2 l3 h12 h23
  induction h12 generalizing l3 with
  | nil => cases h23; exact List.Forall₂.nil
  | cons hxy hrest ih =>
    cases h23 with
    | cons hyz hrest' =>
      exact List.Forall₂.cons (rank_trans hxy hyz) (ih hrest')

theorem forall2_step_ids {l l' : List Box}
    (h : List.Forall₂ StepRel l l') :
    l'.map Box.id = l.map Box.id ∧ l'.map Box.boxUid = l.map Box.boxUid := by
  induction h with
  | nil => exact ⟨rfl, rfl⟩
  | cons hxy hrest ih =>
    obtain ⟨hid, huid⟩ := ih
    refine ⟨?_, ?_⟩ <;> simp only [List.map_cons]
    · rcases hxy with rfl | ⟨h1, -, -⟩
      · rw [hid]
      · rw [h1, hid]
    · rcases hxy with rfl | ⟨-, h2, -⟩
      · rw [huid]
      · rw [h2, huid]

theorem applyTxOp_WF (db : DB) (hwf : db.WF) (op : TxOp) :
    (applyTxOp db op).WF := by
  obtain ⟨hid, huid⟩ := forall2_step_ids (applyTxOp_step db hwf op)
  exact ⟨hid ▸ hwf.1, huid ▸ hwf.2⟩

theorem applyTxOps_rank (ops : List TxOp) :
    ∀ db : DB, db.WF →
    List.Forall₂ RankRel db.boxes (applyTxOps db ops).boxes := by
  induction ops with
  | nil =>
    intro db _
    exact List.forall₂_same.mpr fun x _ => ⟨rfl, rfl, le_refl _⟩
  | cons op ops ih =>
    intro db hwf
    have hstep := List.Forall₂.imp (fun _ _ h => step_to_rank h)
      (applyTxOp_step db hwf op)
    exact forall2_rank_trans hstep (ih _ (applyTxOp_WF db hwf op))

/-- C2: across any sequence of the four standard operations
(warehouse-receive, dispatch, facility-receive, dispense), every box's status
only moves forward along CREATED → IN_WAREHOUSE → IN_TRANSIT → IN_FACILITY →
DISPENSED: a single operation moves each box either not at all or exactly one
step forward, and a sequence never decreases a box's position in that order
(ids and uids are never rewritten). -/
theorem claim_C2_status_only_moves_forward (db : DB) (hwf : db.WF) :
    (∀ op : TxOp,
      List.Forall₂ StepRel db.boxes (applyTxOp db op).boxes) ∧
    (∀ ops : List TxOp,
      List.Forall₂ RankRel db.boxes (applyTxOps db ops).boxes) :=
  ⟨applyTxOp_step db hwf, fun ops => applyTxOps_rank ops db hwf⟩

/-- Witness for C2 at a concrete store and a concrete two-step sequence
(dispatch then facility-receive). -/
theorem claim_C2_witness :
    exDB.WF ∧
    List.Forall₂ RankRel exDB.boxes
      (applyTxOps exDB
        [.disp exWOfficer ["ORD-1-1"] "FAC-1" none,
         .fr exFOfficer1 ["ORD-1-2"] none]).boxes :=
  ⟨by decide,
   (claim_C2_status_only_moves_forward exDB (by decide)).2 _⟩

/-! ## Idempotent warehouse-receive (claim C5) -/

theorem filter_uid_singleton : ∀ {l : List Box},
    (l.map Box.boxUid).Nodup → ∀ {b : Box}, b ∈ l →
    l.filter (fun x => decide (x.boxUid ∈ [b.boxUid])) = [b] := by
  intro l
  induction l with
  | nil => intro _ b hb; exact absurd hb (by simp)
  | cons x xs ih =>
    intro huid b hb
    simp only [List.map_cons] at huid
    have hxnin : x.boxUid ∉ xs.map Box.boxUid :=
      (List.nodup_cons.mp huid).1
    have hxs : (xs.map Box.boxUid).Nodup := (List.nodup_cons.mp huid).2
    rcases List.mem_cons.mp hb with rfl | hbtail
    · rw [List.filter_cons_of_pos (by simp)]
      congr 1
      rw [List.filter_eq_nil_iff]
      intro y hy
      simp only [List.mem_singleton, decide_eq_true_eq]
      intro hyb
      exact hxnin (hyb ▸ List.mem_map_of_mem Box.boxUid hy)
    · rw [List.filter_cons_of_neg (by
        simp only [List.mem_singleton, decide_eq_true_eq]
        intro hxb
        exact hxnin (by
          rw [hxb]
          exact List.mem_map_of_mem Box.boxUid hbtail))]
      exact ih hxs hbtail

theorem resolve_singleton {db : DB} (hwf : db.WF) {b : Box}
    (hb : b ∈ db.boxes) : resolveBoxes db [b.boxUid] = [b] :=
  filter_uid_singleton hwf.2 hb

theorem dedupUids_singleton {s : String} (h : strTrim s = s) :
    dedupUids [s] = [s] := by
  simp only [dedupUids, List.map_cons, List.map_nil, h]
  simp [dedupFirstAux]

theorem getBoxesOrThrow_singleton {db : DB} (hwf : db.WF) {b : Box}
    (hb : b ∈ db.boxes) (htrim : strTrim b.boxUid = b.boxUid) :
    getBoxesOrThrow db [b.boxUid] = .ok [b] := by
  simp only [getBoxesOrThrow, dedupUids_singleton htrim,
    resolve_singleton hwf hb]
  rw [if_neg (by simp)]

/-- C5: warehouse-receiving a box that is already IN_WAREHOUSE at the actor's
own facility is a no-op success: the store's boxes and events are unchanged
(in particular no duplicate WAREHOUSE_RECEIVE event is appended, and the
box's status and currentFacilityId are untouched), and the response reports
the box as skipped, with nothing updated. -/
theorem claim_C5_wr_idempotent_noop (db : DB) (u : User) (b : Box)
    (n : Option String) (fac : Facility) (hwf : db.WF)
    (hrole : u.role ∈ [Role.SUPER_ADMIN, Role.WAREHOUSE_OFFICER])
    (hb : b ∈ db.boxes) (htrim : strTrim b.boxUid = b.boxUid)
    (hfac : getMyFacilityOrThrow db u = .ok fac)
    (hft : fac.ftype = FacilityType.WAREHOUSE)
    (hst : b.status = Status.IN_WAREHOUSE)
    (hcf : b.currentFacilityId = some fac.id) :
    txWarehouseReceive db u [b.boxUid] n =
      ({ db with clock := db.clock + 1 },
       .ok { updatedCount := 0, skippedCount := 1,
             updated := [], skipped := [b.boxUid] }) ∧
    (txWarehouseReceive db u [b.boxUid] n).1.boxes = db.boxes ∧
    (txWarehouseReceive db u [b.boxUid] n).1.events = db.events := by
  have hmain : txWarehouseReceive db u [b.boxUid] n =
      ({ db with clock := db.clock + 1 },
       .ok { updatedCount := 0, skippedCount := 1,
             updated := [], skipped := [b.boxUid] }) := by
    simp only [txWarehouseReceive]
    rw [if_neg (not_not_intro hrole), if_neg (by simp), hfac]
    dsimp only
    rw [if_neg (not_not_intro hft), getBoxesOrThrow_singleton hwf hb htrim]
    dsimp only
    rw [show wrLoop u.id fac.id n [b] db [] [] =
        .ok (db, [], [b.boxUid]) from by
      simp only [wrLoop, if_pos (And.intro hst hcf), List.nil_append]]
    rfl
  exact ⟨hmain, by rw [hmain], by rw [hmain]⟩

/-- Witness for C5 on the concrete store. -/
theorem claim_C5_witness :
    (exDB.WF ∧ exBoxIW ∈ exDB.boxes ∧
     strTrim exBoxIW.boxUid = exBoxIW.boxUid ∧
     getMyFacilityOrThrow exDB exWOfficer = .ok exWarehouse ∧
     exWarehouse.ftype = FacilityType.WAREHOUSE ∧
     exBoxIW.status = Status.IN_WAREHOUSE ∧
     exBoxIW.currentFacilityId = some exWarehouse.id) ∧
    txWarehouseReceive exDB exWOfficer [exBoxIW.boxUid] none =
      ({ exDB with clock := exDB.clock + 1 },
       .ok { updatedCount := 0, skippedCount := 1,
             updated := [], skipped := [exBoxIW.boxUid] }) :=
  ⟨⟨by decide, by decide, by decide, by decide, by decide, by decide,
    by decide⟩,
   (claim_C5_wr_idempotent_noop exDB exWOfficer exBoxIW none exWarehouse
      (by decide) (by decide) (by decide) (by decide) (by decide) (by decide)
      (by decide) (by decide)).1⟩

/-! ## Destination integrity on facility-receive (claim C3) -/

/-- C3: for a box with status IN_TRANSIT and a non-admin actor whose resolved
facility is `fac` (a FACILITY): (a) if the facility-receive succeeds then the
most recent DISPATCH event of the box (by `createdAt` descending) exists and
names `fac` as `toFacilityId`; (b) if the latest DISPATCH names a different
facility, the operation fails with a PreconditionError (HTTP 400) and the
store — in particular the box — is unchanged. -/
theorem claim_C3_destination_integrity (db : DB) (u : User) (b : Box)
    (n : Option String) (fac : Facility) (hwf : db.WF)
    (hrole : u.role ∈ [Role.SUPER_ADMIN, Role.FACILITY_OFFICER])
    (hb : b ∈ db.boxes) (htrim : strTrim b.boxUid = b.boxUid)
    (hfac : getMyFacilityOrThrow db u = .ok fac)
    (hft : fac.ftype = FacilityType.FACILITY)
    (hadmin : u.role ≠ Role.SUPER_ADMIN)
    (hst : b.status = Status.IN_TRANSIT) :
    (∀ d' r, txFacilityReceive db u [b.boxUid] n = (d', .ok r) →
      ∃ ev, lastDispatchFor db.events b.id = some ev ∧
            ev.toFacilityId = some fac.id) ∧
    (∀ ev, lastDispatchFor db.events b.id = some ev →
      ev.toFacilityId ≠ some fac.id →
      ∃ e, txFacilityReceive db u [b.boxUid] n = (db, .error e) ∧
        e.kind = ErrKind.precondition ∧ e.status = 400) := by
  have hroute : ∀ goal : Prop,
      (∀ res, frLoop u.id u.role fac.id n (lastDispatchFor db.events) [b] db
        = res →
        txFacilityReceive db u [b.boxUid] n =
          (match res with
           | .error e => (db, .error e)
           | .ok d => ({ d with clock := d.clock + 1 },
               .ok { count := 1, facility := fac.code })) → goal) → goal := by
    intro goal hcont
    refine hcont _ rfl ?_
    simp only [txFacilityReceive]
    rw [if_neg (not_not_intro hrole), if_neg (by simp), hfac]
    dsimp only
    rw [if_neg (not_not_intro hft), getBoxesOrThrow_singleton hwf hb htrim]
    dsimp only
    cases frLoop u.id u.role fac.id n (lastDispatchFor db.events) [b] db with
    | error e => rfl
    | ok d => rfl
  constructor
  · intro d' r hok
    refine hroute _ fun res hres hroute_eq => ?_
    rw [hroute_eq] at hok
    cases res with
    | error e => exact absurd (congrArg Prod.snd hok) (by simp)
    | ok d =>
      simp only [frLoop, if_neg (not_not_intro hst)] at hres
      cases hl : lastDispatchFor db.events b.id with
      | none => rw [hl] at hres; exact absurd hres (by simp)
      | some ev =>
        rw [hl] at hres
        dsimp only at hres
        by_cases hmis : u.role ≠ Role.SUPER_ADMIN ∧
            ev.toFacilityId ≠ some fac.id
        · rw [if_pos hmis] at hres
          exact absurd hres (by simp)
        · refine ⟨ev, rfl, ?_⟩
          by_contra hto
          exact hmis ⟨hadmin, hto⟩
  · intro ev hl hto
    refine hroute _ fun res hres hroute_eq => ?_
    have hres' : res = .error
        { kind := .precondition, status := 400,
          message := "Box " ++ b.boxUid ++
            " was dispatched to a different facility (duplicate/route mismatch)" } := by
      rw [← hres]
      simp only [frLoop, if_neg (not_not_intro hst), hl,
        if_pos (And.intro hadmin hto)]
    rw [hres'] at hroute_eq
    exact ⟨_, hroute_eq, rfl, rfl⟩

/-- Witness for C3: a facility officer at FAC-2 cannot receive the box whose
latest dispatch targeted FAC-1's id. -/
theorem claim_C3_witness :
    (exDB.WF ∧ exFOfficer2.role ∈ [Role.SUPER_ADMIN, Role.FACILITY_OFFICER] ∧
     exBoxIT ∈ exDB.boxes ∧ strTrim exBoxIT.boxUid = exBoxIT.boxUid ∧
     getMyFacilityOrThrow exDB exFOfficer2 = .ok exFacility2 ∧
     exFacility2.ftype = FacilityType.FACILITY ∧
     exFOfficer2.role ≠ Role.SUPER_ADMIN ∧
     exBoxIT.status = Status.IN_TRANSIT ∧
     lastDispatchFor exDB.events exBoxIT.id =
       some { boxId := 11, etype := .DISPATCH, performedByUserId := 100,
              fromFacilityId := some 1, toFacilityId := some 2,
              note := none, createdAt := 0 }) ∧
    ∃ e, txFacilityReceive exDB exFOfficer2 [exBoxIT.boxUid] none =
        (exDB, .error e) ∧
      e.kind = ErrKind.precondition ∧ e.status = 400 :=
  ⟨⟨by decide, by decide, by decide, by decide, by decide, by decide,
    by decide, by decide, by decide⟩,
   (claim_C3_destination_integrity exDB exFOfficer2 exBoxIT none exFacility2
      (by decide) (by decide) (by decide) (by decide) (by decide) (by decide)
      (by decide) (by decide)).2
     { boxId := 11, etype := .DISPATCH, performedByUserId := 100,
       fromFacilityId := some 1, toFacilityId := some 2,
       note := none, createdAt := 0 } (by decide) (by decide)⟩

/-! ## Dispense only changes the status (claim C10) -/

/-- C10: a successful dispense rewrites only the box's `status` (to
DISPENSED) and appends exactly one DISPENSE event: `currentFacilityId` stays
the dispensing facility and `boxUid`, `orderId`, `productId`, `batchNo`,
`expiryDate` are untouched (the row transform keeps every other field), other
box rows are unchanged, and the dispensed box still appears in the facility's
stock grouping under its product/batch/expiry key with status DISPENSED. -/
theorem claim_C10_dispense_frame (db : DB) (u : User) (uidReq : String)
    (n : Option String) (fac : Facility) (box : Box)
    (hrole : u.role ∈ [Role.SUPER_ADMIN, Role.CLINICIAN])
    (hne : ¬uidReq = "")
    (hfac : getMyFacilityOrThrow db u = .ok fac)
    (hft : fac.ftype = FacilityType.FACILITY)
    (hfind : db.boxes.find? (fun b => decide (b.boxUid = strTrim uidReq)) =
      some box)
    (hst : box.status = Status.IN_FACILITY)
    (hcf : box.currentFacilityId = some fac.id) :
    txDispense db u uidReq n =
      ({ db with
           boxes := updateBoxRow db.boxes box.id
             (fun x => { x with status := .DISPENSED }),
           events := db.events ++ [dispenseEvent box u.id fac.id n db.clock],
           clock := db.clock + 1 },
       .ok { boxUid := box.boxUid, facility := fac.code }) ∧
    (∀ x ∈ db.boxes, x.id ≠ box.id → x ∈ (txDispense db u uidReq n).1.boxes) ∧
    { box with status := Status.DISPENSED } ∈
      (txDispense db u uidReq n).1.boxes ∧
    (∃ c, 0 < c ∧
      (({ productId := box.productId, batchNo := box.batchNo,
          expiryDate := box.expiryDate, status := Status.DISPENSED } :
            StockKey), c) ∈
        stockGroups (txDispense db u uidReq n).1 fac.id) := by
  have hmain : txDispense db u uidReq n =
      ({ db with
           boxes := updateBoxRow db.boxes box.id
             (fun x => { x with status := .DISPENSED }),
           events := db.events ++ [dispenseEvent box u.id fac.id n db.clock],
           clock := db.clock + 1 },
       .ok { boxUid := box.boxUid, facility := fac.code }) := by
    simp only [txDispense]
    rw [if_neg (not_not_intro hrole), if_neg hne, hfac]
    dsimp only
    rw [if_neg (not_not_intro hft), hfind]
    dsimp only
    rw [if_neg (by
      rintro (h | h)
      · exact h hst
      · exact h hcf)]
  set b' : Box := { box with status := Status.DISPENSED } with hb'
  have hbmem : box ∈ db.boxes := List.mem_of_find?_eq_some hfind
  have hmem' : b' ∈ (txDispense db u uidReq n).1.boxes := by
    rw [hmain]
    show b' ∈ updateBoxRow db.boxes box.id _
    refine List.mem_map.mpr ⟨box, hbmem, ?_⟩
    rw [if_pos rfl]
  refine ⟨hmain, ?_, hmem', ?_⟩
  · intro x hx hne'
    rw [hmain]
    show x ∈ updateBoxRow db.boxes box.id _
    refine List.mem_map.mpr ⟨x, hx, ?_⟩
    rw [if_neg hne']
  · have hatf : b' ∈ atFacility (txDispense db u uidReq n).1 fac.id := by
      refine List.mem_filter.mpr ⟨hmem', ?_⟩
      simp only [decide_eq_true_eq]
      exact hcf
    have hkey : boxKey b' =
        { productId := box.productId, batchNo := box.batchNo,
          expiryDate := box.expiryDate, status := Status.DISPENSED } := rfl
    have hkmem : boxKey b' ∈
        (atFacility (txDispense db u uidReq n).1 fac.id).map boxKey :=
      List.mem_map_of_mem boxKey hatf
    have hdmem : boxKey b' ∈ dedupFirstAux []
        ((atFacility (txDispense db u uidReq n).1 fac.id).map boxKey) :=
      (mem_dedupFirstAux _ _ _).mpr ⟨hkmem, by simp⟩
    refine ⟨((atFacility (txDispense db u uidReq n).1 fac.id).filter
        (fun c => decide (boxKey c = boxKey b'))).length, ?_, ?_⟩
    · refine List.length_pos.mpr (List.ne_nil_of_mem
        (List.mem_filter.mpr ⟨hatf, by simp⟩))
    · rw [← hkey]
      exact List.mem_map_of_mem
        (fun k => (k, ((atFacility (txDispense db u uidReq n).1 fac.id).filter
          (fun c => decide (boxKey c = k))).length)) hdmem

/-- Witness for C10 on the concrete store: the clinician at FAC-1 dispenses
the box held there. -/
theorem claim_C10_witness :
    (exClinician.role ∈ [Role.SUPER_ADMIN, Role.CLINICIAN] ∧
     ¬(("ORD-1-3" : String) = "") ∧
     getMyFacilityOrThrow exDB exClinician = .ok exFacility1 ∧
     exFacility1.ftype = FacilityType.FACILITY ∧
     exDB.boxes.find? (fun b => decide (b.boxUid = strTrim "ORD-1-3")) =
       some exBoxIF ∧
     exBoxIF.status = Status.IN_FACILITY ∧
     exBoxIF.currentFacilityId = some exFacility1.id) ∧
    txDispense exDB exClinician "ORD-1-3" none =
      ({ exDB with
           boxes := updateBoxRow exDB.boxes exBoxIF.id
             (fun x => { x with status := .DISPENSED }),
           events := exDB.events ++
             [dispenseEvent exBoxIF exClinician.id exFacility1.id none
               exDB.clock],
           clock := exDB.clock + 1 },
       .ok { boxUid := exBoxIF.boxUid, facility := exFacility1.code }) :=
  ⟨⟨by decide, by decide, by decide, by decide, by decide,
    by decide, by decide⟩,
   (claim_C10_dispense_frame exDB exClinician "ORD-1-3" none exFacility1
      exBoxIF (by decide) (by decide) (by decide) (by decide) (by decide)
      (by decide) (by decide)).1⟩

/-! ## Dispatch postcondition (claim C4) -/

theorem filter_key_singleton {β : Type} [DecidableEq β] (f : Box → β) :
    ∀ {l : List Box}, (l.map f).Nodup → ∀ {b : Box}, b ∈ l →
    l.filter (fun x => decide (f x = f b)) = [b] := by
  intro l
  induction l with
  | nil => intro _ b hb; exact absurd hb (by simp)
  | cons x xs ih =>
    intro hnd b hb
    simp only [List.map_cons] at hnd
    have hxnin : f x ∉ xs.map f := (List.nodup_cons.mp hnd).1
    have hxs : (xs.map f).Nodup := (List.nodup_cons.mp hnd).2
    rcases List.mem_cons.mp hb with rfl | hbtail
    · rw [List.filter_cons_of_pos (by simp)]
      congr 1
      rw [List.filter_eq_nil_iff]
      intro y hy
      simp only [decide_eq_true_eq]
      intro hyb
      exact hxnin (hyb ▸ List.mem_map_of_mem f hy)
    · rw [List.filter_cons_of_neg (by
        simp only [decide_eq_true_eq]
        intro hxb
        exact hxnin (by rw [hxb]; exact List.mem_map_of_mem f hbtail))]
      exact ih hxs hbtail

/-- Counterexample for C4 as stated: the simple-variant transactions dispatch
succeeds but leaves `currentFacilityId` pointing at the warehouse instead of
clearing it to null. -/
theorem claim_C4_counterexample :
    (simpleDispatch exDB exWOfficer ["ORD-1-1"] "FAC-1" none).2 =
      .ok { count := 1, toFacility := "FAC-1" } ∧
    (simpleDispatch exDB exWOfficer ["ORD-1-1"] "FAC-1" none).1.boxes.find?
        (fun b => decide (b.boxUid = "ORD-1-1")) =
      some { exBoxIW with status := .IN_TRANSIT } ∧
    ({ exBoxIW with status := Status.IN_TRANSIT }).currentFacilityId =
      some 1 := by decide

/-- C4 (amended): for the fuller transactions dispatch and for the boxes
router dispatch, every successful dispatch sets every box of the batch to
status IN_TRANSIT with `currentFacilityId = null`, and appends exactly one
DISPATCH event per box, with `fromFacilityId` the source warehouse and
`toFacilityId` the destination facility.  (The simple-variant transactions
dispatch does not clear `currentFacilityId`.) -/
theorem claim_C4_dispatch_postcondition (db : DB) (hwf : db.WF) :
    (∀ (u : User) (us : List String) (code : String) (n : Option String)
       (db' : DB) (r : DispatchResp),
      txDispatch db u us code n = (db', .ok r) →
      ∃ fromFac toFac,
        getMyFacilityOrThrow db u = .ok fromFac ∧
        db.facilities.find? (fun f => decide (f.code = strTrim code)) =
          some toFac ∧
        db'.boxes = db.boxes.map (fun x =>
          if x.id ∈ (resolveBoxes db (dedupUids us)).map Box.id then
            { x with status := .IN_TRANSIT, currentFacilityId := none }
          else x) ∧
        db'.events = db.events ++
          (resolveBoxes db (dedupUids us)).map
            (fun b => dispatchEvent b u.id fromFac.id toFac.id n db.clock) ∧
        ∀ b ∈ resolveBoxes db (dedupUids us),
          ((db'.events.drop db.events.length).filter
            (fun e => decide (e.boxId = b.id))).length = 1) ∧
    (∀ (u : User) (us : List String) (toF fromF : Option Nat)
       (n : Option String) (db' : DB) (r : BoxesDispatchResp),
      boxesDispatch db u us toF fromF n = (db', .ok r) →
      ∃ fromFid toFid fromFacility toFacility,
        (fromF <|> u.facilityId) = some fromFid ∧ toF = some toFid ∧
        assertFacilityExists db fromFid = .ok fromFacility ∧
        assertFacilityExists db toFid = .ok toFacility ∧
        db'.boxes = db.boxes.map (fun x =>
          if x.id ∈ (resolveBoxes db (uniqueStrings us)).map Box.id then
            { x with status := .IN_TRANSIT, currentFacilityId := none }
          else x) ∧
        db'.events = db.events ++
          ((resolveBoxes db (uniqueStrings us)).map Box.id).map
            (bxDispatchEvent u.id fromFid toFid n fromFacility.code
              toFacility.code db.clock) ∧
        ∀ b ∈ resolveBoxes db (uniqueStrings us),
          ((db'.events.drop db.events.length).filter
            (fun e => decide (e.boxId = b.id))).length = 1) := by
  constructor
  · intro u us code n db' r hok
    simp only [txDispatch] at hok
    split at hok
    · exact absurd (congrArg Prod.snd hok) (by simp)
    · split at hok
      · exact absurd (congrArg Prod.snd hok) (by simp)
      · split at hok
        · exact absurd (congrArg Prod.snd hok) (by simp)
        · cases hfac : getMyFacilityOrThrow db u with
          | error e =>
            rw [hfac] at hok
            exact absurd (congrArg Prod.snd hok) (by simp)
          | ok fromFac =>
            rw [hfac] at hok
            dsimp only at hok
            split at hok
            · exact absurd (congrArg Prod.snd hok) (by simp)
            · cases hdest : db.facilities.find?
                  (fun f => decide (f.code = strTrim code)) with
              | none =>
                rw [hdest] at hok
                exact absurd (congrArg Prod.snd hok) (by simp)
              | some toFac =>
                rw [hdest] at hok
                dsimp only at hok
                split at hok
                · exact absurd (congrArg Prod.snd hok) (by simp)
                · split at hok
                  · exact absurd (congrArg Prod.snd hok) (by simp)
                  · cases hget : getBoxesOrThrow db us with
                    | error e =>
                      rw [hget] at hok
                      exact absurd (congrArg Prod.snd hok) (by simp)
                    | ok boxes =>
                      obtain rfl := getBoxesOrThrow_ok hget
                      rw [hget] at hok
                      dsimp only at hok
                      cases hrun : dispatchLoop u.id fromFac.id toFac.id n
                          (resolveBoxes db (dedupUids us)) db with
                      | error e =>
                        rw [hrun] at hok
                        exact absurd (congrArg Prod.snd hok) (by simp)
                      | ok d =>
                        rw [hrun] at hok
                        dsimp only at hok
                        obtain ⟨hr1, hr2⟩ := resolve_h1 hwf (dedupUids us)
                        obtain ⟨hboxes, -, hevents, -⟩ :=
                          dispatchLoop_char u.id fromFac.id toFac.id n _ db d
                            hrun hr1 hr2
                        have hdb' : db' = { d with clock := d.clock + 1 } :=
                          (congrArg Prod.fst hok).symm
                        refine ⟨fromFac, toFac, rfl, rfl, ?_, ?_, ?_⟩
                        · rw [hdb']; exact hboxes
                        · rw [hdb']; exact hevents
                        · intro b hbmem
                          rw [hdb']
                          show ((d.events.drop db.events.length).filter
                            (fun e => decide (e.boxId = b.id))).length = 1
                          rw [hevents, List.drop_left, List.filter_map,
                            show ((fun e => decide (e.boxId = b.id)) ∘
                                (fun c => dispatchEvent c u.id fromFac.id
                                  toFac.id n db.clock)) =
                              (fun x => decide (x.id = b.id)) from rfl,
                            filter_key_singleton Box.id hr2 hbmem]
                          rfl
  · intro u us toF fromF n db' r hok
    simp only [boxesDispatch] at hok
    split at hok
    · exact absurd (congrArg Prod.snd hok) (by simp)
    · split at hok
      · exact absurd (congrArg Prod.snd hok) (by simp)
      · cases toF with
        | none => exact absurd (congrArg Prod.snd hok) (by simp)
        | some toFid =>
          dsimp only at hok
          cases hfrom : fromF <|> u.facilityId with
          | none =>
            rw [hfrom] at hok
            exact absurd (congrArg Prod.snd hok) (by simp)
          | some fromFid =>
            rw [hfrom] at hok
            dsimp only at hok
            cases hfex : assertFacilityExists db fromFid with
            | error e =>
              rw [hfex] at hok
              exact absurd (congrArg Prod.snd hok) (by simp)
            | ok fromFacility =>
              rw [hfex] at hok
              dsimp only at hok
              cases htex : assertFacilityExists db toFid with
              | error e =>
                rw [htex] at hok
                exact absurd (congrArg Prod.snd hok) (by simp)
              | ok toFacility =>
                rw [htex] at hok
                dsimp only at hok
                split at hok
                · exact absurd (congrArg Prod.snd hok) (by simp)
                · split at hok
                  · exact absurd (congrArg Prod.snd hok) (by simp)
                  · obtain ⟨hr1, hr2⟩ := resolve_h1 hwf (uniqueStrings us)
                    have hdb' : db' = _ := (congrArg Prod.fst hok).symm
                    refine ⟨fromFid, toFid, fromFacility, toFacility,
                      rfl, rfl, hfex, htex, ?_, ?_, ?_⟩
                    · rw [hdb']
                    · rw [hdb']
                    · intro b hbmem
                      rw [hdb']
                      show (((db.events ++
                          ((resolveBoxes db (uniqueStrings us)).map
                            Box.id).map (bxDispatchEvent u.id fromFid toFid n
                              fromFacility.code toFacility.code
                              db.clock)).drop db.events.length).filter
                          (fun e => decide (e.boxId = b.id))).length = 1
                      rw [List.drop_left, List.filter_map,
                        show ((fun e => decide (e.boxId = b.id)) ∘
                            bxDispatchEvent u.id fromFid toFid n
                              fromFacility.code toFacility.code db.clock) =
                          (fun i => decide (i = b.id)) from rfl,
                        List.filter_map,
                        show ((fun i => decide (i = b.id)) ∘ Box.id) =
                          (fun x => decide (x.id = b.id)) from rfl,
                        filter_key_singleton Box.id hr2 hbmem]
                      rfl

/-- Witness for C4 (amended): a concrete successful dispatch through the
fuller transactions route. -/
theorem claim_C4_witness :
    exDB.WF ∧
    ∃ fromFac toFac,
      getMyFacilityOrThrow exDB exWOfficer = .ok fromFac ∧
      exDB.facilities.find? (fun f => decide (f.code = strTrim "FAC-1")) =
        some toFac ∧
      (txDispatch exDB exWOfficer ["ORD-1-1"] "FAC-1" none).1.boxes =
        exDB.boxes.map (fun x =>
          if x.id ∈ (resolveBoxes exDB (dedupUids ["ORD-1-1"])).map
              Box.id then
            { x with status := .IN_TRANSIT, currentFacilityId := none }
          else x) ∧
      (txDispatch exDB exWOfficer ["ORD-1-1"] "FAC-1" none).1.events =
        exDB.events ++ (resolveBoxes exDB (dedupUids ["ORD-1-1"])).map
          (fun b => dispatchEvent b exWOfficer.id fromFac.id toFac.id none
            exDB.clock) ∧
      ∀ b ∈ resolveBoxes exDB (dedupUids ["ORD-1-1"]),
        (((txDispatch exDB exWOfficer ["ORD-1-1"] "FAC-1" none).1.events.drop
          exDB.events.length).filter
            (fun e => decide (e.boxId = b.id))).length = 1 :=
  ⟨by decide,
   (claim_C4_dispatch_postcondition exDB (by decide)).1 exWOfficer
     ["ORD-1-1"] "FAC-1" none
     (txDispatch exDB exWOfficer ["ORD-1-1"] "FAC-1" none).1
     { count := 1, fromWarehouse := "WH-A", toFacility := "FAC-1" }
     (by decide)⟩

/-! ## Dispatch authorization (claim C7) -/

/-- A store whose only box sits with status IN_WAREHOUSE at FAC-1, which has
type FACILITY. -/
def exDB7 : DB :=
  { exDB with boxes := [{ exBoxIW with currentFacilityId := some 2 }] }

/-- A warehouse officer whose assigned facility is FAC-1 (type FACILITY). -/
def exUser7 : User :=
  { id := 104, role := .WAREHOUSE_OFFICER, facilityId := some 2 }

/-- Counterexample for C7 as stated: `POST /api/boxes/dispatch` performs no
facility-type or warehouse-hierarchy check, so an actor assigned to a
FACILITY-typed facility successfully dispatches (to a destination that is not
under any warehouse of theirs) and the box is mutated — no AuthorizationError
is raised. -/
theorem claim_C7_counterexample :
    (exDB7.facilities.find? (fun f => decide (f.id = 2)) = some exFacility1 ∧
     exFacility1.ftype = FacilityType.FACILITY ∧
     exFacility2.warehouseId ≠ some exFacility1.id) ∧
    boxesDispatch exDB7 exUser7 ["ORD-1-1"] (some 3) none none =
      ((boxesDispatch exDB7 exUser7 ["ORD-1-1"] (some 3) none none).1,
       .ok { fromFacilityCode := "FAC-1", toFacilityCode := "FAC-2",
             dispatchedCount := 1 }) ∧
    (boxesDispatch exDB7 exUser7 ["ORD-1-1"] (some 3) none
        none).1.boxes.map Box.status = [.IN_TRANSIT] := by decide

/-- C7 (amended): in the transactions dispatch, an actor whose facility is
not a WAREHOUSE fails with HTTP 403 (AuthorizationError); an existing
destination that is not of type FACILITY fails with HTTP 400 (not 403); a
non-admin actor dispatching to a destination whose `warehouseId` is not the
actor's facility fails with HTTP 403 — in each case the store is unchanged,
so no box is mutated and no event appended.  The `/api/boxes/dispatch` route
performs none of these facility-type or hierarchy checks. -/
theorem claim_C7_dispatch_authorization (db : DB) (u : User)
    (us : List String) (code : String) (n : Option String) (fac : Facility)
    (hrole : u.role ∈ [Role.SUPER_ADMIN, Role.WAREHOUSE_OFFICER])
    (hne : us.isEmpty = false) (hcode : ¬code = "")
    (hfac : getMyFacilityOrThrow db u = .ok fac) :
    (fac.ftype ≠ FacilityType.WAREHOUSE →
      ∃ e, txDispatch db u us code n = (db, .error e) ∧
        e.kind = ErrKind.authorization ∧ e.status = 403) ∧
    (∀ toFac,
      db.facilities.find? (fun f => decide (f.code = strTrim code)) =
        some toFac →
      fac.ftype = FacilityType.WAREHOUSE →
      (toFac.ftype ≠ FacilityType.FACILITY →
        ∃ e, txDispatch db u us code n = (db, .error e) ∧
          e.kind = ErrKind.validation ∧ e.status = 400) ∧
      (toFac.ftype = FacilityType.FACILITY →
        u.role ≠ Role.SUPER_ADMIN → toFac.warehouseId ≠ some fac.id →
        ∃ e, txDispatch db u us code n = (db, .error e) ∧
          e.kind = ErrKind.authorization ∧ e.status = 403)) := by
  constructor
  · intro hft
    refine ⟨{ kind := .authorization, status := 403,
              message := "You must be assigned to a WAREHOUSE to dispatch" },
      ?_, rfl, rfl⟩
    simp only [txDispatch]
    rw [if_neg (not_not_intro hrole), if_neg (by simp [hne]), if_neg hcode,
      hfac]
    dsimp only
    rw [if_pos hft]
  · intro toFac hdest hft
    constructor
    · intro htf
      refine ⟨{ kind := .validation, status := 400,
                message := "Destination must be a FACILITY (not a warehouse)" },
        ?_, rfl, rfl⟩
      simp only [txDispatch]
      rw [if_neg (not_not_intro hrole), if_neg (by simp [hne]), if_neg hcode,
        hfac]
      dsimp only
      rw [if_neg (not_not_intro hft), hdest]
      dsimp only
      rw [if_pos htf]
    · intro htf hadmin hwid
      refine ⟨{ kind := .authorization, status := 403,
                message := "This facility is not under your warehouse (warehouseId mismatch)" },
        ?_, rfl, rfl⟩
      simp only [txDispatch]
      rw [if_neg (not_not_intro hrole), if_neg (by simp [hne]), if_neg hcode,
        hfac]
      dsimp only
      rw [if_neg (not_not_intro hft), hdest]
      dsimp only
      rw [if_neg (not_not_intro htf), if_pos ⟨hadmin, hwid⟩]

/-- Witness for C7 (amended): a warehouse officer assigned to a FACILITY-typed
facility is rejected with 403 by the transactions dispatch. -/
theorem claim_C7_witness :
    (exUser7.role ∈ [Role.SUPER_ADMIN, Role.WAREHOUSE_OFFICER] ∧
     (["ORD-1-1"] : List String).isEmpty = false ∧
     ¬(("FAC-1" : String) = "") ∧
     getMyFacilityOrThrow exDB exUser7 = .ok exFacility1 ∧
     exFacility1.ftype ≠ FacilityType.WAREHOUSE) ∧
    ∃ e, txDispatch exDB exUser7 ["ORD-1-1"] "FAC-1" none =
        (exDB, .error e) ∧
      e.kind = ErrKind.authorization ∧ e.status = 403 :=
  ⟨⟨by decide, by decide, by decide, by decide, by decide⟩,
   (claim_C7_dispatch_authorization exDB exUser7 ["ORD-1-1"] "FAC-1" none
      exFacility1 (by decide) (by decide) (by decide) (by decide)).1
     (by decide)⟩

/-! ## Stock aggregation (claim C9) -/

theorem count_add_filter [DecidableEq α] (x : α) (seen : List α)
    (hx : x ∉ seen) :
    ∀ xs : List α,
    xs.count x + (xs.filter (fun y => decide (y ∉ x :: seen))).length =
      (xs.filter (fun y => decide (y ∉ seen))).length := by
  intro xs
  induction xs with
  | nil => simp
  | cons y ys ih =>
    by_cases hyx : y = x
    · subst hyx
      rw [List.count_cons_self,
        List.filter_cons_of_neg (by simp),
        List.filter_cons_of_pos (by simpa using hx),
        List.length_cons]
      omega
    · rw [List.count_cons_of_ne (fun h => hyx h.symm)]
      by_cases hys : y ∈ seen
      · rw [List.filter_cons_of_neg (by simp [hys]),
          List.filter_cons_of_neg (by simpa using hys)]
        exact ih
      · rw [List.filter_cons_of_pos (by
            simp only [decide_eq_true_eq, List.mem_cons, not_or]
            exact ⟨hyx, hys⟩),
          List.filter_cons_of_pos (by simpa using hys),
          List.length_cons, List.length_cons]
        omega

theorem dedupFirstAux_sum_count [DecidableEq α] :
    ∀ (l seen : List α),
    ((dedupFirstAux seen l).map (fun k => l.count k)).sum =
      (l.filter (fun y => decide (y ∉ seen))).length := by
  intro l
  induction l with
  | nil => intro seen; simp [dedupFirstAux]
  | cons x xs ih =>
    intro seen
    by_cases hx : x ∈ seen
    · rw [dedupFirstAux, if_pos hx,
        List.filter_cons_of_neg (by simpa using hx), ← ih seen]
      refine congrArg List.sum (List.map_congr_left fun k hk => ?_)
      have hkn : k ∉ seen := ((mem_dedupFirstAux seen xs k).mp hk).2
      have hkx : ¬(k = x) := fun h => hkn (h ▸ hx)
      rw [List.count_cons_of_ne (fun h => hkx h)]
    · rw [dedupFirstAux, if_neg hx,
        List.filter_cons_of_pos (by simpa using hx),
        List.map_cons, List.sum_cons, List.length_cons,
        List.count_cons_self]
      have hmap : (dedupFirstAux (x :: seen) xs).map
          (fun k => (x :: xs).count k) =
          (dedupFirstAux (x :: seen) xs).map (fun k => xs.count k) := by
        refine List.map_congr_left fun k hk => ?_
        have hkn : k ∉ x :: seen :=
          ((mem_dedupFirstAux (x :: seen) xs k).mp hk).2
        have hkx : ¬(k = x) := fun h => hkn (h ▸ List.mem_cons_self x seen)
        rw [List.count_cons_of_ne (fun h => hkx h)]
      rw [hmap, ih (x :: seen)]
      have := count_add_filter x seen hx xs
      omega

theorem stockGroups_count (db : DB) (fid : Nat) :
    ∀ g ∈ stockGroups db fid,
      g.2 = ((atFacility db fid).filter
        (fun b => decide (boxKey b = g.1))).length := by
  intro g hg
  obtain ⟨k, hk, rfl⟩ := List.mem_map.mp hg
  rfl

theorem stockGroups_totals (db : DB) (fid : Nat) :
    ((stockGroups db fid).map Prod.snd).sum = (atFacility db fid).length := by
  show (((dedupFirstAux [] ((atFacility db fid).map boxKey)).map
      (fun k => (k, ((atFacility db fid).filter
        (fun b => decide (boxKey b = k))).length))).map Prod.snd).sum = _
  rw [List.map_map]
  have hpt : ((dedupFirstAux [] ((atFacility db fid).map boxKey)).map
      (Prod.snd ∘ fun k => (k, ((atFacility db fid).filter
        (fun b => decide (boxKey b = k))).length))) =
      (dedupFirstAux [] ((atFacility db fid).map boxKey)).map
        (fun k => ((atFacility db fid).map boxKey).count k) := by
    refine List.map_congr_left fun k _ => ?_
    show ((atFacility db fid).filter
      (fun b => decide (boxKey b = k))).length = _
    rw [← List.countP_eq_length_filter,
      show (fun b => decide (boxKey b = k)) =
        ((fun a => a == k) ∘ boxKey) from rfl,
      ← List.countP_map]
    rfl
  rw [hpt, dedupFirstAux_sum_count]
  rw [show ((atFacility db fid).map boxKey).filter
      (fun y => decide (y ∉ ([] : List StockKey))) =
      ((atFacility db fid).map boxKey).filter (fun y => true) from
    List.filter_congr fun y _ => by simp]
  rw [List.filter_true, List.length_map]

/-- C9: the stock query is read-only; a non-admin actor querying a facility
other than their own gets HTTP 403; on success the rows are the groups by
(product, batchNo, expiryDate, status) of the boxes whose
`currentFacilityId` is the queried facility (each count is the number of
matching boxes, and every such box falls in some group), and `totals` is the
number of boxes currently at the facility. -/
theorem claim_C9_stock_aggregation (db : DB) (u : User) (fid : Nat) :
    (stockFacility db u fid).1 = db ∧
    (u.role ≠ Role.SUPER_ADMIN → u.facilityId ≠ some fid →
      ∃ e, (stockFacility db u fid).2 = .error e ∧
        e.kind = ErrKind.authorization ∧ e.status = 403) ∧
    (∀ resp, (stockFacility db u fid).2 = .ok resp →
      resp.totals = (atFacility db fid).length ∧
      resp.rows = (stockGroups db fid).map (hydrateRow db.products) ∧
      (∀ g ∈ stockGroups db fid,
        g.2 = ((atFacility db fid).filter
          (fun b => decide (boxKey b = g.1))).length) ∧
      (∀ b ∈ db.boxes, b.currentFacilityId = some fid →
        ∃ g ∈ stockGroups db fid, g.1 = boxKey b ∧ 0 < g.2)) := by
  refine ⟨?_, ?_, ?_⟩
  · simp only [stockFacility]
    split
    · rfl
    · cases assertFacilityExists db fid with
      | error e => rfl
      | ok f => rfl
  · intro hadmin hown
    refine ⟨{ kind := .authorization, status := 403,
              message := "Forbidden: you can only view your facility stock" },
      ?_, rfl, rfl⟩
    simp only [stockFacility]
    rw [if_pos ⟨hadmin, hown⟩]
  · intro resp hok
    simp only [stockFacility] at hok
    split at hok
    · exact absurd hok (by simp)
    · cases hex : assertFacilityExists db fid with
      | error e =>
        rw [hex] at hok
        exact absurd hok (by simp)
      | ok f =>
        rw [hex] at hok
        dsimp only at hok
        injection hok with hresp
        subst hresp
        refine ⟨?_, rfl, stockGroups_count db fid, ?_⟩
        · show (((stockGroups db fid).map (hydrateRow db.products)).map
            StockRow.count).sum = _
          rw [List.map_map, ← stockGroups_totals db fid]
          exact congrArg List.sum (List.map_congr_left fun g _ => rfl)
        · intro b hb hbf
          have hatf : b ∈ atFacility db fid :=
            List.mem_filter.mpr ⟨hb, by simpa using hbf⟩
          have hkmem : boxKey b ∈ (atFacility db fid).map boxKey :=
            List.mem_map_of_mem boxKey hatf
          have hdmem : boxKey b ∈
              dedupFirstAux [] ((atFacility db fid).map boxKey) :=
            (mem_dedupFirstAux _ _ _).mpr ⟨hkmem, by simp⟩
          refine ⟨(boxKey b, ((atFacility db fid).filter
              (fun c => decide (boxKey c = boxKey b))).length),
            List.mem_map_of_mem _ hdmem, rfl, ?_⟩
          exact List.length_pos.mpr (List.ne_nil_of_mem
            (List.mem_filter.mpr ⟨hatf, by simp⟩))

/-- Witness for C9 on the concrete store: the facility officer at FAC-1
queries their own facility's stock; one box (ORD-1-3) is there, and the
aggregation theorem applies to the concrete response. -/
theorem claim_C9_witness :
    (stockFacility exDB exFOfficer1 2).2 = .ok
      { facilityId := 2,
        rows := (stockGroups exDB 2).map (hydrateRow exDB.products),
        totals := 1 } ∧
    ({ facilityId := 2,
       rows := (stockGroups exDB 2).map (hydrateRow exDB.products),
       totals := 1 } : StockResp).totals = (atFacility exDB 2).length :=
  ⟨by decide,
   ((claim_C9_stock_aggregation exDB exFOfficer1 2).2.2 _ (by decide)).1⟩

/-! ## Box generation (claim C8) -/

theorem genBox_id (orderId productId : Nat) (orderNumber batchNo : String)
    (exp whId boxId seq : Nat) :
    (genBox orderId productId orderNumber batchNo exp whId boxId seq).id =
      boxId := rfl

theorem genBox_boxUid (orderId productId : Nat) (orderNumber batchNo : String)
    (exp whId boxId seq : Nat) :
    (genBox orderId productId orderNumber batchNo exp whId boxId seq).boxUid =
      orderNumber ++ "-" ++ toString seq := rfl

theorem genLoop_char (orderId productId : Nat) (orderNumber batchNo : String)
    (exp userId whId : Nat) (whCode : String) :
    ∀ (k seq : Nat) (d : DB) (acc : List String),
    genLoop orderId productId orderNumber batchNo exp userId whId whCode
        k seq d acc =
      ({ d with
          boxes := d.boxes ++ (List.range k).map (fun j =>
            genBox orderId productId orderNumber batchNo exp whId
              (d.nextBoxId + j) (seq + j)),
          nextBoxId := d.nextBoxId + k,
          events := d.events ++ (List.range k).flatMap (fun j =>
            [genQrEvent (d.nextBoxId + j) userId whId orderNumber d.clock,
             genWrEvent (d.nextBoxId + j) userId whId whCode d.clock]) },
       acc ++ (List.range k).map (fun j =>
         orderNumber ++ "-" ++ toString (seq + j))) := by
  intro k
  induction k with
  | zero =>
    intro seq d acc
    simp [genLoop]
  | succ k ih =>
    intro seq d acc
    simp only [genLoop, genBox_id, genBox_boxUid]
    rw [ih]
    dsimp only
    refine congrArg₂ Prod.mk ?_ ?_
    · congr 1
      · rw [List.append_assoc, List.range_succ_eq_map, List.map_cons,
          List.map_map]
        refine congrArg (fun l => d.boxes ++ l) ?_
        rw [List.singleton_append]
        refine congrArg₂ List.cons rfl ?_
        refine List.map_congr_left fun j _ => ?_
        have h1 : d.nextBoxId + 1 + j = d.nextBoxId + (j + 1) := by omega
        have h2 : seq + 1 + j = seq + (j + 1) := by omega
        rw [h1, h2]
        rfl
      · rw [List.append_assoc, List.range_succ_eq_map, List.flatMap_cons,
          List.flatMap_map]
        refine congrArg (fun l => d.events ++ l) ?_
        refine congrArg₂ (fun a b => a ++ b) rfl ?_
        refine List.flatMap_congr fun j _ => ?_
        have h1 : d.nextBoxId + 1 + j = d.nextBoxId + (j + 1) := by omega
        rw [h1]
      · omega
    · rw [List.append_assoc, List.range_succ_eq_map, List.map_cons,
        List.map_map]
      refine congrArg (fun l => acc ++ l) ?_
      rw [List.singleton_append]
      refine congrArg₂ List.cons rfl ?_
      refine List.map_congr_left fun j _ => ?_
      have h2 : seq + 1 + j = seq + (j + 1) := by omega
      rw [h2]
      rfl

theorem genPair_countP_qr (userId whId : Nat) (orderNumber whCode : String)
    (t bid j i : Nat) :
    ([genQrEvent (bid + i) userId whId orderNumber t,
      genWrEvent (bid + i) userId whId whCode t]).countP
        (fun e => decide (e.boxId = bid + j ∧
          e.etype = EventType.QR_CREATED)) = if i = j then 1 else 0 := by
  by_cases h : i = j
  · subst h
    simp [genQrEvent, genWrEvent, List.countP_cons]
  · have hbid : ¬(bid + i = bid + j) := by omega
    simp [genQrEvent, genWrEvent, List.countP_cons, hbid, h]

theorem genPair_countP_wr (userId whId : Nat) (orderNumber whCode : String)
    (t bid j i : Nat) :
    ([genQrEvent (bid + i) userId whId orderNumber t,
      genWrEvent (bid + i) userId whId whCode t]).countP
        (fun e => decide (e.boxId = bid + j ∧
          e.etype = EventType.WAREHOUSE_RECEIVE)) = if i = j then 1 else 0 := by
  by_cases h : i = j
  · subst h
    simp [genQrEvent, genWrEvent, List.countP_cons]
  · have hbid : ¬(bid + i = bid + j) := by omega
    simp [genQrEvent, genWrEvent, List.countP_cons, hbid, h]

theorem flatMap_range_countP {β : Type} (g : Nat → List β) (p : β → Bool)
    (j : Nat) (h : ∀ i, (g i).countP p = if i = j then 1 else 0) :
    ∀ k, ((List.range k).flatMap g).countP p = if j < k then 1 else 0 := by
  intro k
  induction k with
  | zero => simp
  | succ k ih =>
    rw [List.range_succ, List.flatMap_append, List.countP_append, ih,
      List.flatMap_cons, List.flatMap_nil, List.append_nil, h k]
    by_cases h1 : j < k
    · have h2 : ¬(k = j) := by omega
      have h3 : j < k + 1 := by omega
      simp [h1, h2, h3]
    · by_cases h2 : k = j
      · have h3 : j < k + 1 := by omega
        simp [h1, h2, h3]
      · have h3 : ¬(j < k + 1) := by omega
        simp [h1, h2, h3]

/-- C8: for an order that already has `n` boxes and a positive quantity `q`,
box generation (happy path: authorized role, non-empty fields, parsable
expiry date, order and warehouse found, no donor name) succeeds with
`createdCount = q`, appends exactly `q` new boxes whose uids are
`{orderNumber}-{n+1}` through `{orderNumber}-{n+q}`, each initialized to
status IN_WAREHOUSE with `currentFacilityId` = the given warehouse, and
appends per created box exactly one QR_CREATED and exactly one
WAREHOUSE_RECEIVE event. -/
theorem claim_C8_box_generation (db : DB) (user : User) (orderId : Nat)
    (productCode productName batchNo : String) (exp : Nat) (quantity : Int)
    (warehouseFacilityId : Nat) (order : Order) (warehouse : Facility)
    (hrole : user.role ∈ [Role.SUPER_ADMIN, Role.WAREHOUSE_OFFICER])
    (hpc : productCode ≠ "") (hpn : productName ≠ "") (hbn : batchNo ≠ "")
    (hq : 0 < quantity)
    (hord : db.orders.find? (fun o => decide (o.id = orderId)) = some order)
    (hwh : db.facilities.find? (fun f => decide (f.id = warehouseFacilityId)) =
      some warehouse) :
    ∃ pid : Nat,
      (generateBoxes db user orderId productCode productName batchNo
          (some exp) quantity warehouseFacilityId none).2 =
        .ok { orderNumber := order.orderNumber,
              createdCount := quantity.toNat,
              sample := ((List.range quantity.toNat).map (fun j =>
                order.orderNumber ++ "-" ++ toString
                  ((db.boxes.filter (fun b =>
                    decide (b.orderId = order.id))).length + 1 + j))).take 10 } ∧
      (generateBoxes db user orderId productCode productName batchNo
          (some exp) quantity warehouseFacilityId none).1.boxes =
        db.boxes ++ (List.range quantity.toNat).map (fun j =>
          genBox order.id pid order.orderNumber batchNo exp warehouse.id
            (db.nextBoxId + j)
            ((db.boxes.filter (fun b =>
              decide (b.orderId = order.id))).length + 1 + j)) ∧
      (∀ b ∈ ((generateBoxes db user orderId productCode productName batchNo
          (some exp) quantity warehouseFacilityId none).1.boxes).drop
            db.boxes.length,
        b.status = Status.IN_WAREHOUSE ∧
        b.currentFacilityId = some warehouse.id) ∧
      (((generateBoxes db user orderId productCode productName batchNo
          (some exp) quantity warehouseFacilityId none).1.boxes).drop
            db.boxes.length).map Box.boxUid =
        (List.range quantity.toNat).map (fun j =>
          order.orderNumber ++ "-" ++ toString
            ((db.boxes.filter (fun b =>
              decide (b.orderId = order.id))).length + 1 + j)) ∧
      (generateBoxes db user orderId productCode productName batchNo
          (some exp) quantity warehouseFacilityId none).1.events =
        db.events ++ (List.range quantity.toNat).flatMap (fun i =>
          [genQrEvent (db.nextBoxId + i) user.id warehouse.id
             order.orderNumber db.clock,
           genWrEvent (db.nextBoxId + i) user.id warehouse.id
             warehouse.code db.clock]) ∧
      (∀ j < quantity.toNat,
        ((List.range quantity.toNat).flatMap (fun i =>
          [genQrEvent (db.nextBoxId + i) user.id warehouse.id
             order.orderNumber db.clock,
           genWrEvent (db.nextBoxId + i) user.id warehouse.id
             warehouse.code db.clock])).countP
            (fun e => decide (e.boxId = db.nextBoxId + j ∧
              e.etype = EventType.QR_CREATED)) = 1 ∧
        ((List.range quantity.toNat).flatMap (fun i =>
          [genQrEvent (db.nextBoxId + i) user.id warehouse.id
             order.orderNumber db.clock,
           genWrEvent (db.nextBoxId + i) user.id warehouse.id
             warehouse.code db.clock])).countP
            (fun e => decide (e.boxId = db.nextBoxId + j ∧
              e.etype = EventType.WAREHOUSE_RECEIVE)) = 1) := by
  have hq0 : ¬(quantity ≤ 0) := not_le.mpr hq
  have hcount : ∀ j < quantity.toNat,
      ((List.range quantity.toNat).flatMap (fun i =>
        [genQrEvent (db.nextBoxId + i) user.id warehouse.id
           order.orderNumber db.clock,
         genWrEvent (db.nextBoxId + i) user.id warehouse.id
           warehouse.code db.clock])).countP
          (fun e => decide (e.boxId = db.nextBoxId + j ∧
            e.etype = EventType.QR_CREATED)) = 1 ∧
      ((List.range quantity.toNat).flatMap (fun i =>
        [genQrEvent (db.nextBoxId + i) user.id warehouse.id
           order.orderNumber db.clock,
         genWrEvent (db.nextBoxId + i) user.id warehouse.id
           warehouse.code db.clock])).countP
          (fun e => decide (e.boxId = db.nextBoxId + j ∧
            e.etype = EventType.WAREHOUSE_RECEIVE)) = 1 := by
    intro j hj
    constructor
    · rw [flatMap_range_countP _ _ j (fun i =>
        genPair_countP_qr user.id warehouse.id order.orderNumber
          warehouse.code db.clock db.nextBoxId j i) quantity.toNat,
        if_pos hj]
    · rw [flatMap_range_countP _ _ j (fun i =>
        genPair_countP_wr user.id warehouse.id order.orderNumber
          warehouse.code db.clock db.nextBoxId j i) quantity.toNat,
        if_pos hj]
  simp only [generateBoxes]
  rw [if_neg (not_not_intro hrole), if_neg (by simp [hpc, hpn, hbn]),
    if_neg hq0]
  rw [hord]
  dsimp only
  rw [hwh]
  dsimp only
  rw [if_neg (by simp)]
  dsimp only
  cases hfind : db.products.find? (fun p => decide (p.code = productCode)) with
  | some p =>
    dsimp only
    rw [genLoop_char]
    dsimp only
    refine ⟨p.id, ?_, rfl, ?_, ?_, rfl, hcount⟩
    · simp only [List.nil_append, List.length_map, List.length_range]
    · rw [List.drop_left]
      intro b hb
      obtain ⟨j, hj, rfl⟩ := List.mem_map.mp hb
      exact ⟨rfl, rfl⟩
    · rw [List.drop_left, List.map_map]
      refine List.map_congr_left fun j _ => rfl
  | none =>
    dsimp only
    rw [genLoop_char]
    dsimp only
    refine ⟨db.nextProductId, ?_, rfl, ?_, ?_, rfl, hcount⟩
    · simp only [List.nil_append, List.length_map, List.length_range]
    · rw [List.drop_left]
      intro b hb
      obtain ⟨j, hj, rfl⟩ := List.mem_map.mp hb
      exact ⟨rfl, rfl⟩
    · rw [List.drop_left, List.map_map]
      refine List.map_congr_left fun j _ => rfl

/-- Witness for C8 on the concrete store: order ORD-1 already has 3 boxes;
generating 2 more as the warehouse officer yields uids ORD-1-4 and ORD-1-5. -/
theorem claim_C8_witness :
    exDB.orders.find? (fun o => decide (o.id = 5)) =
      some { id := 5, orderNumber := "ORD-1", donorName := none } ∧
    (generateBoxes exDB exWOfficer 5 "RUTF" "Therapeutic food" "B2"
        (some 100) 2 1 none).2 =
      .ok { orderNumber := "ORD-1", createdCount := 2,
            sample := ["ORD-1-4", "ORD-1-5"] } :=
  ⟨by decide,
   match claim_C8_box_generation exDB exWOfficer 5 "RUTF" "Therapeutic food"
       "B2" 100 2 1 { id := 5, orderNumber := "ORD-1", donorName := none }
       exWarehouse (by decide) (by decide) (by decide) (by decide) (by decide)
       (by decide) (by decide) with
   | ⟨_, h, _⟩ => h.trans (by decide)⟩

end LMIS
